import Mathlib

/-!
Verification development for the FLIP fluid solver in `src/flip-fluid.ts`
(TypeScript port of the Ten Minute Physics FLIP fluid).  The solver state and
every phase of the per-tick pipeline are shallowly embedded as pure Lean
functions over exact rational arithmetic.  JavaScript `Float32Array` /
`Int32Array` buffers are modelled as `List ℚ` / `List ℤ` with the read/write
helpers below; `Math.floor` is `Int.floor` on `ℚ`; the single square root used
by the collision and separation code is threaded as an explicit function
parameter `sq : ℚ → ℚ`, since none of the properties proved here depend on its
values (the concrete runs below only ever apply it to `0`).
-/

set_option maxRecDepth 1000000

unseal Rat.add Rat.mul Rat.inv Rat.sub

namespace FlipSpec

/-- `FLUID_CELL` constant from the source. -/
def FLUID_CELL : ℤ := 0

/-- `AIR_CELL` constant from the source. -/
def AIR_CELL : ℤ := 1

/-- `SOLID_CELL` constant from the source. -/
def SOLID_CELL : ℤ := 2

/-- The source's `clamp(x, min, max)` helper, for any linear order. -/
def clamp {α : Type} [LinearOrder α] (x mn mx : α) : α :=
  if x < mn then mn else if x > mx then mx else x

/-- `Math.sign` on rationals. -/
def signQ (x : ℚ) : ℚ := if 0 < x then 1 else if x < 0 then -1 else 0

/-- Read a rational buffer at a (possibly out-of-range) integer index;
out-of-range reads default to 0 (every read on the verified paths is in
range). -/
def qget (l : List ℚ) (i : ℤ) : ℚ := if 0 ≤ i then l.getD i.toNat 0 else 0

/-- Write a rational buffer at an integer index; out-of-range writes are
dropped, mirroring typed-array semantics. -/
def qset (l : List ℚ) (i : ℤ) (v : ℚ) : List ℚ :=
  if 0 ≤ i then l.set i.toNat v else l

/-- Read an integer buffer at an integer index. -/
def zget (l : List ℤ) (i : ℤ) : ℤ := if 0 ≤ i then l.getD i.toNat 0 else 0

/-- Write an integer buffer at an integer index. -/
def zset (l : List ℤ) (i : ℤ) (v : ℤ) : List ℤ :=
  if 0 ≤ i then l.set i.toNat v else l

theorem qget_qset_eq (l : List ℚ) (i : ℤ) (v : ℚ)
    (h0 : 0 ≤ i) (h1 : i.toNat < l.length) : qget (qset l i v) i = v := by
  simp only [qget, qset, if_pos h0]
  rw [List.getD_eq_getElem _ _ (by simpa using h1)]
  simp [List.getElem_set_self]

theorem qget_qset_ne (l : List ℚ) (i j : ℤ) (v : ℚ) (h : i ≠ j) :
    qget (qset l i v) j = qget l j := by
  unfold qget qset
  by_cases h0 : 0 ≤ i
  · by_cases h2 : 0 ≤ j
    · simp only [if_pos h0, if_pos h2]
      have hne : i.toNat ≠ j.toNat := by
        intro hc
        exact h (by omega)
      by_cases h3 : j.toNat < l.length
      · rw [List.getD_eq_getElem _ _ (by simpa [List.length_set] using h3),
          List.getD_eq_getElem _ _ (by simpa using h3)]
        simp [List.getElem_set_ne hne]
      · rw [List.getD_eq_default _ _ (by simpa [List.length_set] using h3),
          List.getD_eq_default _ _ (by simpa using h3)]
    · simp [h0, h2]
  · simp [h0]

theorem zget_zset_eq (l : List ℤ) (i : ℤ) (v : ℤ)
    (h0 : 0 ≤ i) (h1 : i.toNat < l.length) : zget (zset l i v) i = v := by
  simp only [zget, zset, if_pos h0]
  rw [List.getD_eq_getElem _ _ (by simpa using h1)]
  simp [List.getElem_set_self]

theorem zget_zset_ne (l : List ℤ) (i j : ℤ) (v : ℤ) (h : i ≠ j) :
    zget (zset l i v) j = zget l j := by
  unfold zget zset
  by_cases h0 : 0 ≤ i
  · by_cases h2 : 0 ≤ j
    · simp only [if_pos h0, if_pos h2]
      have hne : i.toNat ≠ j.toNat := by
        intro hc
        exact h (by omega)
      by_cases h3 : j.toNat < l.length
      · rw [List.getD_eq_getElem _ _ (by simpa [List.length_set] using h3),
          List.getD_eq_getElem _ _ (by simpa using h3)]
        simp [List.getElem_set_ne hne]
      · rw [List.getD_eq_default _ _ (by simpa [List.length_set] using h3),
          List.getD_eq_default _ _ (by simpa using h3)]
    · simp [h0, h2]
  · simp [h0]

theorem qset_length (l : List ℚ) (i : ℤ) (v : ℚ) :
    (qset l i v).length = l.length := by
  unfold qset; split <;> simp

theorem zset_length (l : List ℤ) (i : ℤ) (v : ℤ) :
    (zset l i v).length = l.length := by
  unfold zset; split <;> simp

/-- The mutable solver state: a field-for-field translation of the
`FlipFluid` class of `src/flip-fluid.ts`. -/
structure FlipFluid where
  density : ℚ
  fNumX : ℤ
  fNumY : ℤ
  h : ℚ
  fInvSpacing : ℚ
  fNumCells : ℤ
  u : List ℚ
  v : List ℚ
  du : List ℚ
  dv : List ℚ
  prevU : List ℚ
  prevV : List ℚ
  p : List ℚ
  s : List ℚ
  cellType : List ℤ
  cellColor : List ℚ
  maxParticles : ℕ
  particlePos : List ℚ
  particleColor : List ℚ
  particleVel : List ℚ
  particleDensity : List ℚ
  particleRestDensity : ℚ
  particleRadius : ℚ
  pInvSpacing : ℚ
  pNumX : ℤ
  pNumY : ℤ
  pNumCells : ℤ
  numCellParticles : List ℤ
  firstCellParticle : List ℤ
  cellParticleIds : List ℤ
  numParticles : ℕ
  deriving DecidableEq

namespace FlipFluid

/-- The `FlipFluid` constructor (`constructor(density, width, height, spacing,
particleRadius, maxParticles)` in the source).  All arrays are zero-filled on
allocation; the blue channel of every particle color is then set to 1.
Modelling boundary: the typed-array allocations are modelled as
`List.replicate` of the computed lengths, with total rational division.
This is faithful exactly when the computed lengths are finite nonnegative
integers — positive `spacing` and `particleRadius` and a nonnegative domain.
Outside that regime (zero spacing or radius, negative width or height) the
JavaScript length expression is `Infinity` or negative and
`new Float32Array` / `new Int32Array` itself throws a `RangeError`, a
failure path this embedding does not model; theorems about `construct` on
arbitrary inputs are therefore stated only under those regime hypotheses. -/
def construct (density width height spacing particleRadius : ℚ)
    (maxParticles : ℕ) : FlipFluid :=
  let fNumX : ℤ := ⌊width / spacing⌋ + 1
  let fNumY : ℤ := ⌊height / spacing⌋ + 1
  let h : ℚ := max (width / (fNumX : ℚ)) (height / (fNumY : ℚ))
  let fInvSpacing : ℚ := 1 / h
  let fNumCells : ℤ := fNumX * fNumY
  let pInvSpacing : ℚ := 1 / (11 / 5 * particleRadius)
  let pNumX : ℤ := ⌊width * pInvSpacing⌋ + 1
  let pNumY : ℤ := ⌊height * pInvSpacing⌋ + 1
  let pNumCells : ℤ := pNumX * pNumY
  { density := density
    fNumX := fNumX
    fNumY := fNumY
    h := h
    fInvSpacing := fInvSpacing
    fNumCells := fNumCells
    u := List.replicate fNumCells.toNat 0
    v := List.replicate fNumCells.toNat 0
    du := List.replicate fNumCells.toNat 0
    dv := List.replicate fNumCells.toNat 0
    prevU := List.replicate fNumCells.toNat 0
    prevV := List.replicate fNumCells.toNat 0
    p := List.replicate fNumCells.toNat 0
    s := List.replicate fNumCells.toNat 0
    cellType := List.replicate fNumCells.toNat 0
    cellColor := List.replicate (3 * fNumCells.toNat) 0
    maxParticles := maxParticles
    particlePos := List.replicate (2 * maxParticles) 0
    particleColor :=
      (List.range maxParticles).foldl
        (fun a (i : ℕ) => qset a (3 * (i : ℤ) + 2) 1)
        (List.replicate (3 * maxParticles) 0)
    particleVel := List.replicate (2 * maxParticles) 0
    particleDensity := List.replicate fNumCells.toNat 0
    particleRestDensity := 0
    particleRadius := particleRadius
    pInvSpacing := pInvSpacing
    pNumX := pNumX
    pNumY := pNumY
    pNumCells := pNumCells
    numCellParticles := List.replicate pNumCells.toNat 0
    firstCellParticle := List.replicate (pNumCells.toNat + 1) 0
    cellParticleIds := List.replicate maxParticles 0
    numParticles := 0 }

/-- One iteration of the `integrateParticles` loop body for particle `i`
(`integrateParticles`, lines 102-110): gravity, the velocity-squared drag
term on each axis, then the position advance. -/
def integrateStep (dt gravity damping : ℚ) (st : FlipFluid) (i : ℕ) :
    FlipFluid :=
  let vy0 := qget st.particleVel (2 * (i : ℤ) + 1) + dt * gravity
  let vel1 := qset st.particleVel (2 * (i : ℤ) + 1) vy0
  let vx0 := qget vel1 (2 * (i : ℤ))
  let vel2 := qset vel1 (2 * (i : ℤ)) (vx0 - vx0 * vx0 * damping * signQ vx0)
  let vy1 := qget vel2 (2 * (i : ℤ) + 1)
  let vel3 := qset vel2 (2 * (i : ℤ) + 1) (vy1 - vy1 * vy1 * damping * signQ vy1)
  let pos1 := qset st.particlePos (2 * (i : ℤ))
    (qget st.particlePos (2 * (i : ℤ)) + qget vel3 (2 * (i : ℤ)) * dt)
  let pos2 := qset pos1 (2 * (i : ℤ) + 1)
    (qget pos1 (2 * (i : ℤ) + 1) + qget vel3 (2 * (i : ℤ) + 1) * dt)
  { st with particleVel := vel3, particlePos := pos2 }

/-- `integrateParticles(dt, gravity, damping)`. -/
def integrateParticles (dt gravity damping : ℚ) (st : FlipFluid) : FlipFluid :=
  (List.range st.numParticles).foldl (integrateStep dt gravity damping) st

/-- The clamped spatial-hash cell of particle `i`
(`pushParticlesApart`, lines 118-122 and 134-138). -/
def pHash (st : FlipFluid) (i : ℕ) : ℤ :=
  let xi := clamp ⌊qget st.particlePos (2 * (i : ℤ)) * st.pInvSpacing⌋ 0
    (st.pNumX - 1)
  let yi := clamp ⌊qget st.particlePos (2 * (i : ℤ) + 1) * st.pInvSpacing⌋ 0
    (st.pNumY - 1)
  xi * st.pNumY + yi

/-- Histogram phase of the counting sort (`pushParticlesApart`,
lines 117-124): one increment per particle at its hash cell. -/
def csHist (hash : ℕ → ℤ) (n : ℕ) (cnt0 : List ℤ) : List ℤ :=
  (List.range n).foldl
    (fun cnt i => zset cnt (hash i) (zget cnt (hash i) + 1)) cnt0

/-- Running-total phase of the counting sort (`pushParticlesApart`,
lines 126-131): `first += count[i]; firstCellParticle[i] = first`, then the
final total is stored at index `m`. -/
def csCum (cnt : List ℤ) (m : ℕ) (first0 : List ℤ) : List ℤ :=
  let t := (List.range m).foldl
    (fun acc (i : ℕ) => (acc.1 + zget cnt (i : ℤ), zset acc.2 (i : ℤ) (acc.1 + zget cnt (i : ℤ))))
    ((0 : ℤ), first0)
  zset t.2 (m : ℤ) t.1

/-- One step of the fill phase of the counting sort (`pushParticlesApart`,
lines 133-141): decrement the cell cursor, then store the particle id at the
cursor. -/
def csFillStep (hash : ℕ → ℤ) (acc : List ℤ × List ℤ) (i : ℕ) :
    List ℤ × List ℤ :=
  let c := hash i
  let f := zget acc.1 c - 1
  (zset acc.1 c f, zset acc.2 f (i : ℤ))

/-- Fill phase of the counting sort. -/
def csFill (hash : ℕ → ℤ) (n : ℕ) (first0 ids0 : List ℤ) :
    List ℤ × List ℤ :=
  (List.range n).foldl (csFillStep hash) (first0, ids0)

/-- The hash-build prelude of `pushParticlesApart` (lines 115-141). -/
def buildHash (st : FlipFluid) : FlipFluid :=
  let cnt := csHist (pHash st) st.numParticles
    (List.replicate st.numCellParticles.length 0)
  let first1 := csCum cnt st.pNumCells.toNat st.firstCellParticle
  let fi := csFill (pHash st) st.numParticles first1 st.cellParticleIds
  { st with numCellParticles := cnt, firstCellParticle := fi.1,
            cellParticleIds := fi.2 }

/-- The innermost body of `pushParticlesApart` (lines 163-190): the pair
interaction of particle `i` (whose position was read into the loop locals
`px`, `py`) with the hashed neighbour `id`, including the skip conditions,
the symmetric position update and the color diffusion. -/
def sepPush (sq : ℚ → ℚ) (minDist : ℚ) (i : ℕ) (px py : ℚ)
    (st : FlipFluid) (id : ℤ) : FlipFluid :=
  if id = (i : ℤ) then st else
  let minDist2 := minDist * minDist
  let qx := qget st.particlePos (2 * id)
  let qy := qget st.particlePos (2 * id + 1)
  let dx := qx - px
  let dy := qy - py
  let d2 := dx * dx + dy * dy
  if d2 > minDist2 ∨ d2 = 0 then st else
  let d := sq d2
  let sc := 1 / 2 * (minDist - d) / d
  let dxs := dx * sc
  let dys := dy * sc
  let pos1 := qset st.particlePos (2 * (i : ℤ))
    (qget st.particlePos (2 * (i : ℤ)) - dxs)
  let pos2 := qset pos1 (2 * (i : ℤ) + 1) (qget pos1 (2 * (i : ℤ) + 1) - dys)
  let pos3 := qset pos2 (2 * id) (qget pos2 (2 * id) + dxs)
  let pos4 := qset pos3 (2 * id + 1) (qget pos3 (2 * id + 1) + dys)
  let pc := (List.range 3).foldl (fun pc k =>
    let color0 := qget pc (3 * (i : ℤ) + (k : ℤ))
    let color1 := qget pc (3 * id + (k : ℤ))
    let color := (color0 + color1) * (1 / 2)
    let pc1 := qset pc (3 * (i : ℤ) + (k : ℤ))
      (color0 + (color - color0) * (1 / 1000))
    qset pc1 (3 * id + (k : ℤ)) (color1 + (color - color1) * (1 / 1000)))
    st.particleColor
  { st with particlePos := pos4, particleColor := pc }

/-- Scan of one hash cell for particle `i` (`pushParticlesApart`,
lines 160-190). -/
def sepScanCell (sq : ℚ → ℚ) (minDist : ℚ) (i : ℕ) (px py : ℚ)
    (st : FlipFluid) (cellNr : ℤ) : FlipFluid :=
  let cellFirst := zget st.firstCellParticle cellNr
  let cellLast := zget st.firstCellParticle (cellNr + 1)
  (List.range (cellLast - cellFirst).toNat).foldl
    (fun s2 (k : ℕ) =>
      sepPush sq minDist i px py s2
        (zget s2.cellParticleIds (cellFirst + (k : ℤ)))) st

/-- The 3x3 neighbourhood scan for particle `i` (`pushParticlesApart`,
lines 147-192). -/
def sepParticle (sq : ℚ → ℚ) (minDist : ℚ) (st : FlipFluid) (i : ℕ) :
    FlipFluid :=
  let px := qget st.particlePos (2 * (i : ℤ))
  let py := qget st.particlePos (2 * (i : ℤ) + 1)
  let pxi := ⌊px * st.pInvSpacing⌋
  let pyi := ⌊py * st.pInvSpacing⌋
  let x0 := max (pxi - 1) 0
  let y0 := max (pyi - 1) 0
  let x1 := min (pxi + 1) (st.pNumX - 1)
  let y1 := min (pyi + 1) (st.pNumY - 1)
  (List.range (x1 + 1 - x0).toNat).foldl (fun s1 (a : ℕ) =>
    (List.range (y1 + 1 - y0).toNat).foldl (fun s2 (b : ℕ) =>
      sepScanCell sq minDist i px py s2
        ((x0 + (a : ℤ)) * st.pNumY + (y0 + (b : ℤ)))) s1) st

/-- `pushParticlesApart(numIters)`: hash build followed by the separation
sweeps. -/
def pushParticlesApart (sq : ℚ → ℚ) (numIters : ℕ) (st0 : FlipFluid) :
    FlipFluid :=
  let st := buildHash st0
  let minDist := 2 * st.particleRadius
  (List.range numIters).foldl (fun s1 _ =>
    (List.range s1.numParticles).foldl (sepParticle sq minDist) s1) st

/-- The per-particle body of `handleParticleCollisions` (lines 211-256):
obstacle interaction, then the horizontal clamp (zeroing horizontal
velocity) and the vertical wrap-around. -/
def collideStep (obstacleX obstacleY obstacleRadius obstacleVelX
    obstacleVelY : ℚ) (sq : ℚ → ℚ) (st : FlipFluid) (i : ℕ) : FlipFluid :=
  let h := 1 / st.fInvSpacing
  let r := st.particleRadius
  let minDist := obstacleRadius + r
  let minDist2 := minDist * minDist
  let minX := h + r
  let maxX := ((st.fNumX : ℚ) - 1) * h - r
  let minY := h + r
  let maxY := ((st.fNumY : ℚ) - 1) * h - r
  let x := qget st.particlePos (2 * (i : ℤ))
  let y := qget st.particlePos (2 * (i : ℤ) + 1)
  let dx := x - obstacleX
  let dy := y - obstacleY
  let d2 := dx * dx + dy * dy
  let res : ℚ × ℚ × List ℚ :=
    if d2 < minDist2 then
      let vel1 := qset st.particleVel (2 * (i : ℤ))
        (qget st.particleVel (2 * (i : ℤ)) + obstacleVelX)
      let vel2 := qset vel1 (2 * (i : ℤ) + 1)
        (qget vel1 (2 * (i : ℤ) + 1) + obstacleVelY)
      let d := sq d2
      let nx := dx / d
      let ny := dy / d
      let x1 := x + nx * (minDist - d) * 1
      let y1 := y + ny * (minDist - d) * 1
      let vel3 := qset vel2 (2 * (i : ℤ))
        (qget vel2 (2 * (i : ℤ)) - nx * d2 * 3)
      let vel4 := qset vel3 (2 * (i : ℤ) + 1)
        (qget vel3 (2 * (i : ℤ) + 1) - ny * d2 * 3)
      (x1, y1, vel4)
    else (x, y, st.particleVel)
  let a1 : ℚ × List ℚ :=
    if res.1 < minX then (minX, qset res.2.2 (2 * (i : ℤ)) 0)
    else (res.1, res.2.2)
  let a2 : ℚ × List ℚ :=
    if a1.1 > maxX then (maxX, qset a1.2 (2 * (i : ℤ)) 0) else a1
  let y3 := if res.2.1 < minY then maxY + res.2.1 else res.2.1
  let y4 := if y3 > maxY then minY + (y3 - maxY) else y3
  { st with particleVel := a2.2,
            particlePos :=
              qset (qset st.particlePos (2 * (i : ℤ)) a2.1)
                (2 * (i : ℤ) + 1) y4 }

/-- `handleParticleCollisions(obstacleX, obstacleY, obstacleRadius,
obstacleVelX, obstacleVelY)`. -/
def handleParticleCollisions (obstacleX obstacleY obstacleRadius obstacleVelX
    obstacleVelY : ℚ) (sq : ℚ → ℚ) (st : FlipFluid) : FlipFluid :=
  (List.range st.numParticles).foldl
    (collideStep obstacleX obstacleY obstacleRadius obstacleVelX obstacleVelY
      sq) st

/-- The clamped owning cell of particle `i` on the velocity grid
(`transferVelocities`, lines 326-330). -/
def pOwnerCell (st : FlipFluid) (i : ℕ) : ℤ :=
  let xi := clamp ⌊qget st.particlePos (2 * (i : ℤ)) * st.fInvSpacing⌋ 0
    (st.fNumX - 1)
  let yi := clamp ⌊qget st.particlePos (2 * (i : ℤ) + 1) * st.fInvSpacing⌋ 0
    (st.fNumY - 1)
  xi * st.fNumY + yi

/-- The cell-classification pass at the start of the scatter phase
(`transferVelocities`, lines 322-332): `SOLID` where `s == 0`, else `AIR`,
then each particle promotes its owning cell from `AIR` to `FLUID`. -/
def classifyCells (st : FlipFluid) : FlipFluid :=
  let ct1 := (List.range st.fNumCells.toNat).foldl
    (fun ct (i : ℕ) =>
      zset ct (i : ℤ) (if qget st.s (i : ℤ) = 0 then SOLID_CELL else AIR_CELL))
    st.cellType
  let ct2 := (List.range st.numParticles).foldl
    (fun ct i =>
      let cellNr := pOwnerCell st i
      if zget ct cellNr = AIR_CELL then zset ct cellNr FLUID_CELL else ct) ct1
  { st with cellType := ct2 }

/-- Bilinear node data for particle `i` and velocity component `c`
(`transferVelocities`, lines 336-369): the four staggered-lattice node
indices and area weights. -/
structure NodeData where
  d0 : ℚ
  d1 : ℚ
  d2 : ℚ
  d3 : ℚ
  nr0 : ℤ
  nr1 : ℤ
  nr2 : ℤ
  nr3 : ℤ

/-- Computes the `NodeData` of particle `i` for component `c`. -/
def nodeData (st : FlipFluid) (c i : ℕ) : NodeData :=
  let n := st.fNumY
  let h := st.h
  let h1 := st.fInvSpacing
  let h2 := 1 / 2 * h
  let dx := if c = 0 then 0 else h2
  let dy := if c = 0 then h2 else 0
  let x := clamp (qget st.particlePos (2 * (i : ℤ))) h (((st.fNumX : ℚ) - 1) * h)
  let y := clamp (qget st.particlePos (2 * (i : ℤ) + 1)) h
    (((st.fNumY : ℚ) - 1) * h)
  let x0 := min ⌊(x - dx) * h1⌋ (st.fNumX - 2)
  let tx := ((x - dx) - (x0 : ℚ) * h) * h1
  let x1 := min (x0 + 1) (st.fNumX - 2)
  let y0 := min ⌊(y - dy) * h1⌋ (st.fNumY - 2)
  let ty := ((y - dy) - (y0 : ℚ) * h) * h1
  let y1 := min (y0 + 1) (st.fNumY - 2)
  let sx := 1 - tx
  let sy := 1 - ty
  { d0 := sx * sy, d1 := tx * sy, d2 := tx * ty, d3 := sx * ty,
    nr0 := x0 * n + y0, nr1 := x1 * n + y0, nr2 := x1 * n + y1,
    nr3 := x0 * n + y1 }

/-- Read the staggered velocity field of component `c` (the source's local
alias `f`). -/
def fGet (st : FlipFluid) (c : ℕ) (i : ℤ) : ℚ :=
  if c = 0 then qget st.u i else qget st.v i

/-- Read the snapshot field of component `c` (the source's `prevF`). -/
def prevFGet (st : FlipFluid) (c : ℕ) (i : ℤ) : ℚ :=
  if c = 0 then qget st.prevU i else qget st.prevV i

/-- Accumulate into the velocity field of component `c`. -/
def fAdd (st : FlipFluid) (c : ℕ) (i : ℤ) (val : ℚ) : FlipFluid :=
  if c = 0 then { st with u := qset st.u i (qget st.u i + val) }
  else { st with v := qset st.v i (qget st.v i + val) }

/-- Accumulate into the weight buffer of component `c` (the source's
`weight`, aliasing `du`/`dv`). -/
def wAdd (st : FlipFluid) (c : ℕ) (i : ℤ) (val : ℚ) : FlipFluid :=
  if c = 0 then { st with du := qset st.du i (qget st.du i + val) }
  else { st with dv := qset st.dv i (qget st.dv i + val) }

/-- Scatter branch of the transfer loop for one particle
(`transferVelocities`, lines 371-380). -/
def scatterStep (c : ℕ) (st : FlipFluid) (i : ℕ) : FlipFluid :=
  let nd := nodeData st c i
  let pv := qget st.particleVel (2 * (i : ℤ) + (c : ℤ))
  let s1 := wAdd (fAdd st c nd.nr0 (pv * nd.d0)) c nd.nr0 nd.d0
  let s2 := wAdd (fAdd s1 c nd.nr1 (pv * nd.d1)) c nd.nr1 nd.d1
  let s3 := wAdd (fAdd s2 c nd.nr2 (pv * nd.d2)) c nd.nr2 nd.d2
  wAdd (fAdd s3 c nd.nr3 (pv * nd.d3)) c nd.nr3 nd.d3

/-- Validity flag of a node for component `c` (`transferVelocities`,
lines 382-402): a node counts if at least one of the two cells sharing the
face is non-`AIR`. -/
def validAt (st : FlipFluid) (c : ℕ) (nr : ℤ) : ℚ :=
  let off : ℤ := if c = 0 then st.fNumY else 1
  if zget st.cellType nr ≠ AIR_CELL ∨ zget st.cellType (nr - off) ≠ AIR_CELL
  then 1 else 0

/-- The total validity-weighted bilinear weight of particle `i`, component
`c` (`transferVelocities`, lines 405-406). -/
def totalWeightAt (st : FlipFluid) (c i : ℕ) : ℚ :=
  let nd := nodeData st c i
  validAt st c nd.nr0 * nd.d0 + validAt st c nd.nr1 * nd.d1 +
    validAt st c nd.nr2 * nd.d2 + validAt st c nd.nr3 * nd.d3

/-- The validity-weighted average of the current grid velocity over the four
nodes of particle `i`, component `c` (the source's `picV`,
lines 409-412). -/
def picVAt (st : FlipFluid) (c i : ℕ) : ℚ :=
  let nd := nodeData st c i
  (validAt st c nd.nr0 * nd.d0 * fGet st c nd.nr0 +
   validAt st c nd.nr1 * nd.d1 * fGet st c nd.nr1 +
   validAt st c nd.nr2 * nd.d2 * fGet st c nd.nr2 +
   validAt st c nd.nr3 * nd.d3 * fGet st c nd.nr3) / totalWeightAt st c i

/-- The validity-weighted average of the grid velocity change since the
pre-projection snapshot (the source's `corr`, lines 413-418). -/
def corrAt (st : FlipFluid) (c i : ℕ) : ℚ :=
  let nd := nodeData st c i
  (validAt st c nd.nr0 * nd.d0 * (fGet st c nd.nr0 - prevFGet st c nd.nr0) +
   validAt st c nd.nr1 * nd.d1 * (fGet st c nd.nr1 - prevFGet st c nd.nr1) +
   validAt st c nd.nr2 * nd.d2 * (fGet st c nd.nr2 - prevFGet st c nd.nr2) +
   validAt st c nd.nr3 * nd.d3 * (fGet st c nd.nr3 - prevFGet st c nd.nr3)) /
    totalWeightAt st c i

/-- Gather branch of the transfer loop for one particle
(`transferVelocities`, lines 381-423): PIC/FLIP blend when the total valid
weight is positive, otherwise no write. -/
def gatherStep (flipRatio : ℚ) (c : ℕ) (st : FlipFluid) (i : ℕ) : FlipFluid :=
  if totalWeightAt st c i > 0 then
    let v := qget st.particleVel (2 * (i : ℤ) + (c : ℤ))
    let flipV := v + corrAt st c i
    let newVel := qset st.particleVel (2 * (i : ℤ) + (c : ℤ))
      ((1 - flipRatio) * picVAt st c i + flipRatio * flipV)
    { st with particleVel := newVel }
  else st

/-- Normalisation of an accumulated field by its weights
(`transferVelocities`, lines 427-429). -/
def normalizeList (f w : List ℚ) : List ℚ :=
  (List.range f.length).foldl
    (fun f2 (i : ℕ) =>
      if qget w (i : ℤ) > 0 then qset f2 (i : ℤ) (qget f2 (i : ℤ) / qget w (i : ℤ))
      else f2) f

/-- Restore the pre-scatter snapshot on faces touching a `SOLID` cell
(`transferVelocities`, lines 431-439). -/
def restoreSolid (st : FlipFluid) : FlipFluid :=
  let n := st.fNumY
  (List.range st.fNumX.toNat).foldl (fun s1 (i : ℕ) =>
    (List.range st.fNumY.toNat).foldl (fun s2 (j : ℕ) =>
      let idx := (i : ℤ) * n + (j : ℤ)
      let solid := zget s2.cellType idx = SOLID_CELL
      let s3 :=
        if solid ∨ ((i : ℤ) > 0 ∧ zget s2.cellType (((i : ℤ) - 1) * n + (j : ℤ)) = SOLID_CELL)
        then { s2 with u := qset s2.u idx (qget s2.prevU idx) } else s2
      if solid ∨ ((j : ℤ) > 0 ∧ zget s3.cellType ((i : ℤ) * n + (j : ℤ) - 1) = SOLID_CELL)
      then { s3 with v := qset s3.v idx (qget s3.prevV idx) } else s3) s1) st

/-- `transferVelocities(toGrid, flipRatio)`: with `toGrid`, snapshot and
zero the grids, classify cells and scatter; without, gather with the
PIC/FLIP blend. -/
def transferVelocities (toGrid : Bool) (flipRatio : ℚ) (st0 : FlipFluid) :
    FlipFluid :=
  let st1 :=
    if toGrid then
      classifyCells
        { st0 with prevU := st0.u, prevV := st0.v,
                   du := List.replicate st0.du.length 0,
                   dv := List.replicate st0.dv.length 0,
                   u := List.replicate st0.u.length 0,
                   v := List.replicate st0.v.length 0 }
    else st0
  (List.range 2).foldl (fun s1 c =>
    let s2 := (List.range s1.numParticles).foldl
      (fun s i => if toGrid then scatterStep c s i else gatherStep flipRatio c s i)
      s1
    if toGrid then
      let s3 :=
        if c = 0 then { s2 with u := normalizeList s2.u s2.du }
        else { s2 with v := normalizeList s2.v s2.dv }
      restoreSolid s3
    else s2) st1

/-- The scalar density splat of `updateParticleDensity` (lines 259-291):
each particle adds its bilinear cell-centre weights into a zeroed density
buffer. -/
def densitySplat (st : FlipFluid) : List ℚ :=
  let n := st.fNumY
  let h := st.h
  let h1 := st.fInvSpacing
  let h2 := 1 / 2 * h
  (List.range st.numParticles).foldl (fun d (i : ℕ) =>
    let x := clamp (qget st.particlePos (2 * (i : ℤ))) h (((st.fNumX : ℚ) - 1) * h)
    let y := clamp (qget st.particlePos (2 * (i : ℤ) + 1)) h
      (((st.fNumY : ℚ) - 1) * h)
    let x0 := ⌊(x - h2) * h1⌋
    let tx := ((x - h2) - (x0 : ℚ) * h) * h1
    let x1 := min (x0 + 1) (st.fNumX - 2)
    let y0 := ⌊(y - h2) * h1⌋
    let ty := ((y - h2) - (y0 : ℚ) * h) * h1
    let y1 := min (y0 + 1) (st.fNumY - 2)
    let sx := 1 - tx
    let sy := 1 - ty
    let e1 := if x0 < st.fNumX ∧ y0 < st.fNumY
      then qset d (x0 * n + y0) (qget d (x0 * n + y0) + sx * sy) else d
    let e2 := if x1 < st.fNumX ∧ y0 < st.fNumY
      then qset e1 (x1 * n + y0) (qget e1 (x1 * n + y0) + tx * sy) else e1
    let e3 := if x1 < st.fNumX ∧ y1 < st.fNumY
      then qset e2 (x1 * n + y1) (qget e2 (x1 * n + y1) + tx * ty) else e2
    if x0 < st.fNumX ∧ y1 < st.fNumY
    then qset e3 (x0 * n + y1) (qget e3 (x0 * n + y1) + sx * ty) else e3)
    (List.replicate st.particleDensity.length 0)

/-- `updateParticleDensity()`: the splat followed by the one-shot
rest-density calibration (lines 293-305), which runs only while the stored
rest density is still 0 and there is at least one `FLUID` cell. -/
def updateParticleDensity (st : FlipFluid) : FlipFluid :=
  let d := densitySplat st
  let st1 := { st with particleDensity := d }
  if st.particleRestDensity = 0 then
    let sc := (List.range st.fNumCells.toNat).foldl (fun acc (i : ℕ) =>
      if zget st.cellType (i : ℤ) = FLUID_CELL
      then (acc.1 + qget d (i : ℤ), acc.2 + 1) else acc) ((0 : ℚ), (0 : ℕ))
    if 0 < sc.2 then { st1 with particleRestDensity := sc.1 / (sc.2 : ℚ) }
    else st1
  else st1

/-- The relaxation update of one interior cell (`solveIncompressibility`,
lines 457-487). -/
def solveCell (dt overRelaxation : ℚ) (compensateDrift : Bool)
    (st : FlipFluid) (i j : ℤ) : FlipFluid :=
  let n := st.fNumY
  let cp := st.density * st.h / dt
  if zget st.cellType (i * n + j) ≠ FLUID_CELL then st else
  let center := i * n + j
  let left := (i - 1) * n + j
  let right := (i + 1) * n + j
  let bottom := i * n + j - 1
  let top := i * n + j + 1
  let sx0 := qget st.s left
  let sx1 := qget st.s right
  let sy0 := qget st.s bottom
  let sy1 := qget st.s top
  let sNb := sx0 + sx1 + sy0 + sy1
  if sNb = 0 then st else
  let div0 := qget st.u right - qget st.u center + qget st.v top -
    qget st.v center
  let div1 :=
    if st.particleRestDensity > 0 ∧ compensateDrift then
      let k : ℚ := 1
      let compression := qget st.particleDensity (i * n + j) -
        st.particleRestDensity
      if compression > 0 then div0 - k * compression else div0
    else div0
  let pq := -div1 / sNb * overRelaxation
  let u1 := qset st.u center (qget st.u center - sx0 * pq)
  let u2 := qset u1 right (qget u1 right + sx1 * pq)
  let v1 := qset st.v center (qget st.v center - sy0 * pq)
  let v2 := qset v1 top (qget v1 top + sy1 * pq)
  { st with p := qset st.p center (qget st.p center + cp * pq),
            u := u2, v := v2 }

/-- `solveIncompressibility(numIters, dt, overRelaxation, compensateDrift)`:
zero the pressure, snapshot the velocities, then the fixed-order
Gauss-Seidel sweeps over interior cells. -/
def solveIncompressibility (numIters : ℕ) (dt overRelaxation : ℚ)
    (compensateDrift : Bool) (st0 : FlipFluid) : FlipFluid :=
  let st := { st0 with p := List.replicate st0.p.length 0,
                       prevU := st0.u, prevV := st0.v }
  (List.range numIters).foldl (fun s1 _ =>
    (List.range (s1.fNumX - 2).toNat).foldl (fun s2 (a : ℕ) =>
      (List.range (s2.fNumY - 2).toNat).foldl (fun s3 (b : ℕ) =>
        solveCell dt overRelaxation compensateDrift s3 (1 + (a : ℤ))
          (1 + (b : ℤ))) s2) s1) st

/-- The per-particle body of `updateParticleColors` (lines 496-522). -/
def colorStep (st : FlipFluid) (i : ℕ) : FlipFluid :=
  let h1 := st.fInvSpacing
  let delta : ℚ := 1 / 100
  let pc1 := qset st.particleColor (3 * (i : ℤ))
    (clamp (qget st.particleColor (3 * (i : ℤ)) - delta) 0 1)
  let pc2 := qset pc1 (3 * (i : ℤ) + 1)
    (clamp (qget pc1 (3 * (i : ℤ) + 1) - delta) 0 1)
  let pc3 := qset pc2 (3 * (i : ℤ) + 2)
    (clamp (qget pc2 (3 * (i : ℤ) + 2) + delta) 0 1)
  let x := qget st.particlePos (2 * (i : ℤ))
  let y := qget st.particlePos (2 * (i : ℤ) + 1)
  let xi := clamp ⌊x * h1⌋ 1 (st.fNumX - 1)
  let yi := clamp ⌊y * h1⌋ 1 (st.fNumY - 1)
  let cellNr := xi * st.fNumY + yi
  let d0 := st.particleRestDensity
  let pc4 :=
    if d0 > 0 then
      if qget st.particleDensity cellNr / d0 < 7 / 10 then
        let bright : ℚ := 4 / 5
        qset (qset (qset pc3 (3 * (i : ℤ)) bright) (3 * (i : ℤ) + 1) bright)
          (3 * (i : ℤ) + 2) 1
      else pc3
    else pc3
  { st with particleColor := pc4 }

/-- `updateParticleColors()`. -/
def updateParticleColors (st : FlipFluid) : FlipFluid :=
  (List.range st.numParticles).foldl colorStep st

/-- `setSciColor(cellNr, val, minVal, maxVal)`: the 4-band hue ramp
(lines 525-560). -/
def setSciColor (st : FlipFluid) (cellNr : ℤ) (val minVal maxVal : ℚ) :
    FlipFluid :=
  let val1 := min (max val minVal) (maxVal - 1 / 10000)
  let dd := maxVal - minVal
  let val2 := if dd = 0 then 1 / 2 else (val1 - minVal) / dd
  let m : ℚ := 1 / 4
  let num := ⌊val2 / m⌋
  let sc := (val2 - (num : ℚ) * m) / m
  let rgb : ℚ × ℚ × ℚ :=
    if num = 0 then (0, sc, 1)
    else if num = 1 then (0, 1, 1 - sc)
    else if num = 2 then (sc, 1, 0)
    else if num = 3 then (1, 1 - sc, 0)
    else (0, 0, 0)
  let cc := qset (qset (qset st.cellColor (3 * cellNr) rgb.1)
    (3 * cellNr + 1) rgb.2.1) (3 * cellNr + 2) rgb.2.2
  { st with cellColor := cc }

/-- `updateCellColors()` (lines 562-576). -/
def updateCellColors (st0 : FlipFluid) : FlipFluid :=
  let st := { st0 with cellColor := List.replicate st0.cellColor.length 0 }
  (List.range st.fNumCells.toNat).foldl (fun s1 (i : ℕ) =>
    if zget s1.cellType (i : ℤ) = SOLID_CELL then
      let cc := qset (qset (qset s1.cellColor (3 * (i : ℤ)) (1 / 2))
        (3 * (i : ℤ) + 1) (1 / 2)) (3 * (i : ℤ) + 2) (1 / 2)
      { s1 with cellColor := cc }
    else if zget s1.cellType (i : ℤ) = FLUID_CELL then
      let d1 := qget s1.particleDensity (i : ℤ)
      let d2 := if s1.particleRestDensity > 0 then d1 / s1.particleRestDensity
        else d1
      setSciColor s1 (i : ℤ) d2 0 2
    else s1) st

end FlipFluid

/-- The per-tick parameters of `simulate` (its argument list, including the
optional damping coefficient), together with the square-root function the
collision and separation code uses. -/
structure SimParams where
  dt : ℚ
  gravity : ℚ
  flipRatio : ℚ
  numPressureIters : ℕ
  numParticleIters : ℕ
  overRelaxation : ℚ
  compensateDrift : Bool
  separateParticles : Bool
  obstacleX : ℚ
  obstacleY : ℚ
  obstacleRadius : ℚ
  obstacleVelX : ℚ
  obstacleVelY : ℚ
  damping : ℚ
  sq : ℚ → ℚ

namespace FlipFluid

/-- The pipeline prefix of one substep of `simulate` (lines 588-592) up to
and including the scatter/classification transfer: integrate, optionally
separate, collide, transfer to grid. -/
def preDensityState (p : SimParams) (sdt : ℚ) (st : FlipFluid) : FlipFluid :=
  let st1 := integrateParticles sdt p.gravity p.damping st
  let st2 := if p.separateParticles
    then pushParticlesApart p.sq p.numParticleIters st1 else st1
  let st3 := handleParticleCollisions p.obstacleX p.obstacleY p.obstacleRadius
    p.obstacleVelX p.obstacleVelY p.sq st2
  transferVelocities true 0 st3

/-- One substep of `simulate` (lines 587-599). -/
def substep (p : SimParams) (sdt : ℚ) (st : FlipFluid) : FlipFluid :=
  let st4 := preDensityState p sdt st
  let st5 := updateParticleDensity st4
  let st6 := solveIncompressibility p.numPressureIters sdt p.overRelaxation
    p.compensateDrift st5
  let st7 := transferVelocities false p.flipRatio st6
  handleParticleCollisions p.obstacleX p.obstacleY p.obstacleRadius
    p.obstacleVelX p.obstacleVelY p.sq st7

/-- `simulate(...)` (lines 578-603): a single substep followed by the two
color updates. -/
def simulate (p : SimParams) (st : FlipFluid) : FlipFluid :=
  let numSubSteps : ℕ := 1
  let sdt := p.dt / (numSubSteps : ℚ)
  let st1 := (List.range numSubSteps).foldl (fun s _ => substep p sdt s) st
  updateCellColors (updateParticleColors st1)

/-- A run of the solver: one `simulate` call per element of the per-tick
parameter sequence. -/
def runTicks (ps : List SimParams) (st : FlipFluid) : FlipFluid :=
  ps.foldl (fun s p => simulate p s) st

end FlipFluid

/-! ### Concrete states for counterexamples and witnesses

A 4x4 grid with cell size 1 and a single particle, with the open-fraction
layout the application's `setupScene` produces (side and bottom walls carved
to `s = 0`, top row left open). -/

/-- Open fractions of the 4x4 test grid, matching `setupScene` in
`fluid-canvas.ts`: `s = 0` for `i = 0`, `i = fNumX-1` and `j = 0`, and `s = 1`
elsewhere (the top boundary row `j = fNumY-1` is left open). -/
def appS : List ℚ := (List.range 16).map (fun k =>
  if k / 4 = 0 ∨ k / 4 = 3 ∨ k % 4 = 0 then 0 else 1)

/-- A one-particle solver state on a 4x4 grid of unit cells, particle radius
1/4, with the particle at `(px, py)`. -/
def tinyState (px py : ℚ) : FlipFluid :=
  { density := 1000, fNumX := 4, fNumY := 4, h := 1, fInvSpacing := 1,
    fNumCells := 16,
    u := List.replicate 16 0, v := List.replicate 16 0,
    du := List.replicate 16 0, dv := List.replicate 16 0,
    prevU := List.replicate 16 0, prevV := List.replicate 16 0,
    p := List.replicate 16 0, s := appS,
    cellType := List.replicate 16 0, cellColor := List.replicate 48 0,
    maxParticles := 1, particlePos := [px, py], particleColor := [0, 0, 1],
    particleVel := [0, 0], particleDensity := List.replicate 16 0,
    particleRestDensity := 0, particleRadius := 1 / 4, pInvSpacing := 20 / 11,
    pNumX := 6, pNumY := 6, pNumCells := 36,
    numCellParticles := List.replicate 36 0,
    firstCellParticle := List.replicate 37 0,
    cellParticleIds := List.replicate 1 0, numParticles := 1 }

/-- Tick parameters with gravity, damping and obstacle velocity zero and the
obstacle far outside the 4x4 domain. -/
def noObsParams : SimParams :=
  { dt := 1 / 60, gravity := 0, flipRatio := 1 / 2, numPressureIters := 1,
    numParticleIters := 0, overRelaxation := 19 / 10, compensateDrift := false,
    separateParticles := false, obstacleX := 100, obstacleY := 100,
    obstacleRadius := 1 / 10, obstacleVelX := 0, obstacleVelY := 0,
    damping := 0, sq := fun _ => 0 }

/-- Tick parameters whose stationary obstacle of radius 1/2 is centred at
`(3/2, 3/2)`, with zero gravity and damping.  The only value the square-root
function is applied to during the associated runs is `0`, where it returns
the exact answer. -/
def obsParams : SimParams :=
  { dt := 1 / 60, gravity := 0, flipRatio := 1 / 2, numPressureIters := 1,
    numParticleIters := 0, overRelaxation := 19 / 10, compensateDrift := false,
    separateParticles := false, obstacleX := 3 / 2, obstacleY := 3 / 2,
    obstacleRadius := 1 / 2, obstacleVelX := 0, obstacleVelY := 0,
    damping := 0, sq := fun _ => 0 }

/-! ### Fold preservation infrastructure -/

theorem foldl_pres {α β : Type} (P : α → Prop) (f : α → β → α)
    (hf : ∀ a b, P a → P (f a b)) :
    ∀ (l : List β) (a : α), P a → P (l.foldl f a)
  | [], _, ha => ha
  | b :: l, a, ha => foldl_pres P f hf l (f a b) (hf a b ha)

/-- A gather step only rewrites the particle-velocity buffer. -/
theorem gatherStep_frame (fr : ℚ) (c : ℕ) (st : FlipFluid) (i : ℕ) :
    ∃ pv, FlipFluid.gatherStep fr c st i = { st with particleVel := pv } := by
  refine ⟨(FlipFluid.gatherStep fr c st i).particleVel, ?_⟩
  unfold FlipFluid.gatherStep
  split <;> rfl

/-- A whole gather pass only rewrites the particle-velocity buffer. -/
theorem gatherFold_frame (fr : ℚ) (c : ℕ) :
    ∀ (l : List ℕ) (a : FlipFluid),
      ∃ pv, l.foldl (FlipFluid.gatherStep fr c) a = { a with particleVel := pv }
  | [], a => ⟨a.particleVel, rfl⟩
  | i :: l, a => by
    obtain ⟨pv2, h2⟩ := gatherFold_frame fr c l (FlipFluid.gatherStep fr c a i)
    obtain ⟨pv1, h1⟩ := gatherStep_frame fr c a i
    refine ⟨pv2, ?_⟩
    show l.foldl (FlipFluid.gatherStep fr c) (FlipFluid.gatherStep fr c a i) =
      { a with particleVel := pv2 }
    rw [h2, h1]

/-- `transferVelocities` with `toGrid = false` is the two gather passes. -/
theorem transfer_false_eq (fr : ℚ) (st : FlipFluid) :
    FlipFluid.transferVelocities false fr st =
      (List.range ((List.range st.numParticles).foldl
          (FlipFluid.gatherStep fr 0) st).numParticles).foldl
        (FlipFluid.gatherStep fr 1)
        ((List.range st.numParticles).foldl (FlipFluid.gatherStep fr 0) st) :=
  rfl

/-- The whole `toGrid = false` transfer only rewrites the particle-velocity
buffer. -/
theorem transfer_false_frame (fr : ℚ) (st : FlipFluid) :
    ∃ pv, FlipFluid.transferVelocities false fr st =
      { st with particleVel := pv } := by
  rw [transfer_false_eq]
  obtain ⟨pv1, h1⟩ := gatherFold_frame fr 0 (List.range st.numParticles) st
  obtain ⟨pv2, h2⟩ :=
    gatherFold_frame fr 1
      (List.range ((List.range st.numParticles).foldl
        (FlipFluid.gatherStep fr 0) st).numParticles)
      ((List.range st.numParticles).foldl (FlipFluid.gatherStep fr 0) st)
  refine ⟨pv2, ?_⟩
  rw [h2, h1]

/-! ### C10: the gather transfer modifies only particle velocities -/

/-- C10: a call to `transferVelocities` with `toGrid = false` leaves every
field other than `particleVel` unchanged: the grids `u`, `v`, `prevU`,
`prevV`, `du`, `dv`, `p`, `s`, `cellType`, `particleDensity`, the particle
positions and colors, `numParticles`, and `particleRestDensity`. -/
theorem C10_gather_frame (fr : ℚ) (st : FlipFluid) :
    (FlipFluid.transferVelocities false fr st).u = st.u ∧
    (FlipFluid.transferVelocities false fr st).v = st.v ∧
    (FlipFluid.transferVelocities false fr st).prevU = st.prevU ∧
    (FlipFluid.transferVelocities false fr st).prevV = st.prevV ∧
    (FlipFluid.transferVelocities false fr st).du = st.du ∧
    (FlipFluid.transferVelocities false fr st).dv = st.dv ∧
    (FlipFluid.transferVelocities false fr st).p = st.p ∧
    (FlipFluid.transferVelocities false fr st).s = st.s ∧
    (FlipFluid.transferVelocities false fr st).cellType = st.cellType ∧
    (FlipFluid.transferVelocities false fr st).particleDensity =
      st.particleDensity ∧
    (FlipFluid.transferVelocities false fr st).particlePos = st.particlePos ∧
    (FlipFluid.transferVelocities false fr st).particleColor =
      st.particleColor ∧
    (FlipFluid.transferVelocities false fr st).numParticles =
      st.numParticles ∧
    (FlipFluid.transferVelocities false fr st).particleRestDensity =
      st.particleRestDensity := by
  obtain ⟨pv, h⟩ := transfer_false_frame fr st
  rw [h]
  exact ⟨rfl, rfl, rfl, rfl, rfl, rfl, rfl, rfl, rfl, rfl, rfl, rfl, rfl, rfl⟩

/-! ### C3: pairwise separation symmetry -/

/-- C3: in the pair interaction of `pushParticlesApart` (the inner loop
body, `sepPush`, with the code's separation distance `2 * particleRadius`),
for two distinct in-range particles the two applied position deltas sum to
the zero vector componentwise, whatever the branch taken; and a pair whose
hashed neighbour position coincides exactly with the scanning particle's
loop-local position is skipped entirely, leaving the state unchanged. -/
theorem C3_pair_separation (sq : ℚ → ℚ) (st : FlipFluid) (i j : ℕ)
    (hij : i ≠ j)
    (hi : 2 * i + 1 < st.particlePos.length)
    (hj : 2 * j + 1 < st.particlePos.length) (px py : ℚ) :
    (qget (FlipFluid.sepPush sq (2 * st.particleRadius) i px py st
        (j : ℤ)).particlePos (2 * (i : ℤ)) -
      qget st.particlePos (2 * (i : ℤ))) +
    (qget (FlipFluid.sepPush sq (2 * st.particleRadius) i px py st
        (j : ℤ)).particlePos (2 * (j : ℤ)) -
      qget st.particlePos (2 * (j : ℤ))) = 0 ∧
    (qget (FlipFluid.sepPush sq (2 * st.particleRadius) i px py st
        (j : ℤ)).particlePos (2 * (i : ℤ) + 1) -
      qget st.particlePos (2 * (i : ℤ) + 1)) +
    (qget (FlipFluid.sepPush sq (2 * st.particleRadius) i px py st
        (j : ℤ)).particlePos (2 * (j : ℤ) + 1) -
      qget st.particlePos (2 * (j : ℤ) + 1)) = 0 ∧
    (qget st.particlePos (2 * (j : ℤ)) = px ∧
      qget st.particlePos (2 * (j : ℤ) + 1) = py →
      FlipFluid.sepPush sq (2 * st.particleRadius) i px py st (j : ℤ) = st) := by
  have hji : ((j : ℤ)) ≠ ((i : ℤ)) := by omega
  have hIJ : (2 * (i : ℤ)) ≠ 2 * (j : ℤ) := by omega
  have hI1J : (2 * (i : ℤ) + 1) ≠ 2 * (j : ℤ) := by omega
  have hJ1J : (2 * (j : ℤ) + 1) ≠ 2 * (j : ℤ) := by omega
  have hI1I : (2 * (i : ℤ) + 1) ≠ 2 * (i : ℤ) := by omega
  have hJI : (2 * (j : ℤ)) ≠ 2 * (i : ℤ) := by omega
  have hJ1I : (2 * (j : ℤ) + 1) ≠ 2 * (i : ℤ) := by omega
  have hIJ1 : (2 * (i : ℤ)) ≠ 2 * (j : ℤ) + 1 := by omega
  have hJI1 : (2 * (j : ℤ)) ≠ 2 * (i : ℤ) + 1 := by omega
  have hJ1I1 : (2 * (j : ℤ) + 1) ≠ 2 * (i : ℤ) + 1 := by omega
  have hII1 : (2 * (i : ℤ)) ≠ 2 * (i : ℤ) + 1 := by omega
  have hJJ1 : (2 * (j : ℤ)) ≠ 2 * (j : ℤ) + 1 := by omega
  have hI1J1 : (2 * (i : ℤ) + 1) ≠ 2 * (j : ℤ) + 1 := by omega
  unfold FlipFluid.sepPush
  rw [if_neg hji]
  dsimp only
  split
  case isTrue hcond =>
    refine ⟨by ring, by ring, fun _ => rfl⟩
  case isFalse hcond =>
    refine ⟨?_, ?_, ?_⟩
    · rw [qget_qset_ne _ _ _ _ hJ1I, qget_qset_ne _ _ _ _ hJI,
        qget_qset_ne _ _ _ _ hI1I,
        qget_qset_eq _ _ _ (by omega) (by omega),
        qget_qset_ne _ _ _ _ hJ1J,
        qget_qset_eq _ _ _ (by omega)
          (by simp only [qset_length]; omega),
        qget_qset_ne _ _ _ _ hI1J, qget_qset_ne _ _ _ _ hIJ]
      ring
    · rw [qget_qset_ne _ _ _ _ hJ1I1, qget_qset_ne _ _ _ _ hJI1,
        qget_qset_eq _ _ _ (by omega)
          (by simp only [qset_length]; omega),
        qget_qset_ne _ _ _ _ hII1,
        qget_qset_eq _ _ _ (by omega)
          (by simp only [qset_length]; omega),
        qget_qset_ne _ _ _ _ hJJ1, qget_qset_ne _ _ _ _ hI1J1,
        qget_qset_ne _ _ _ _ hIJ1]
      ring
    · intro hco
      exact absurd (Or.inr (by rw [hco.1, hco.2]; ring)) hcond

/-- A two-particle variant of the 4x4 test state: particles at `(3/2, 3/2)`
and `(8/5, 3/2)`, closer than `2 * particleRadius = 1/2`. -/
def pairState : FlipFluid :=
  { density := 1000, fNumX := 4, fNumY := 4, h := 1, fInvSpacing := 1,
    fNumCells := 16,
    u := List.replicate 16 0, v := List.replicate 16 0,
    du := List.replicate 16 0, dv := List.replicate 16 0,
    prevU := List.replicate 16 0, prevV := List.replicate 16 0,
    p := List.replicate 16 0, s := appS,
    cellType := List.replicate 16 0, cellColor := List.replicate 48 0,
    maxParticles := 2, particlePos := [3 / 2, 3 / 2, 8 / 5, 3 / 2],
    particleColor := [0, 0, 1, 0, 0, 1],
    particleVel := [0, 0, 0, 0], particleDensity := List.replicate 16 0,
    particleRestDensity := 0, particleRadius := 1 / 4, pInvSpacing := 20 / 11,
    pNumX := 6, pNumY := 6, pNumCells := 36,
    numCellParticles := List.replicate 36 0,
    firstCellParticle := List.replicate 37 0,
    cellParticleIds := List.replicate 2 0, numParticles := 2 }

/-- Witness for C3 at the concrete two-particle state. -/
theorem C3_pair_separation_witness :
    (qget (FlipFluid.sepPush (fun _ => 0) (2 * pairState.particleRadius) 0
        (3 / 2) (3 / 2) pairState ((1 : ℕ) : ℤ)).particlePos
      (2 * ((0 : ℕ) : ℤ)) - qget pairState.particlePos (2 * ((0 : ℕ) : ℤ))) +
    (qget (FlipFluid.sepPush (fun _ => 0) (2 * pairState.particleRadius) 0
        (3 / 2) (3 / 2) pairState ((1 : ℕ) : ℤ)).particlePos
      (2 * ((1 : ℕ) : ℤ)) - qget pairState.particlePos (2 * ((1 : ℕ) : ℤ))) =
      0 :=
  (C3_pair_separation (fun _ => 0) pairState 0 1 (by decide) (by decide)
    (by decide) (3 / 2) (3 / 2)).1

/-! ### C4: gather postcondition -/

/-- The gather weights and averages read no particle velocities, so they are
invariant under replacing the velocity buffer. -/
theorem totalWeightAt_pv (st : FlipFluid) (pv : List ℚ) (c i : ℕ) :
    FlipFluid.totalWeightAt { st with particleVel := pv } c i =
      FlipFluid.totalWeightAt st c i := rfl

theorem picVAt_pv (st : FlipFluid) (pv : List ℚ) (c i : ℕ) :
    FlipFluid.picVAt { st with particleVel := pv } c i =
      FlipFluid.picVAt st c i := rfl

theorem corrAt_pv (st : FlipFluid) (pv : List ℚ) (c i : ℕ) :
    FlipFluid.corrAt { st with particleVel := pv } c i =
      FlipFluid.corrAt st c i := rfl

/-- A gather step writes its own velocity slot with the PIC/FLIP blend when
the total valid weight is positive and leaves it alone otherwise. -/
theorem gatherStep_self (fr : ℚ) (c : ℕ) (st : FlipFluid) (i : ℕ)
    (hlen : 2 * i + c < st.particleVel.length) :
    qget (FlipFluid.gatherStep fr c st i).particleVel (2 * (i : ℤ) + (c : ℤ)) =
      if FlipFluid.totalWeightAt st c i > 0
      then (1 - fr) * FlipFluid.picVAt st c i +
        fr * (qget st.particleVel (2 * (i : ℤ) + (c : ℤ)) +
          FlipFluid.corrAt st c i)
      else qget st.particleVel (2 * (i : ℤ) + (c : ℤ)) := by
  unfold FlipFluid.gatherStep
  dsimp only
  split
  · exact qget_qset_eq _ _ _ (by omega) (by omega)
  · rfl

/-- A gather step leaves every other velocity slot unchanged. -/
theorem gatherStep_other (fr : ℚ) (c : ℕ) (st : FlipFluid) (i : ℕ) (k : ℤ)
    (hk : k ≠ 2 * (i : ℤ) + (c : ℤ)) :
    qget (FlipFluid.gatherStep fr c st i).particleVel k =
      qget st.particleVel k := by
  unfold FlipFluid.gatherStep
  dsimp only
  split
  · exact qget_qset_ne _ _ _ _ (Ne.symm hk)
  · rfl

/-- A gather step preserves the length of the velocity buffer. -/
theorem gatherStep_len (fr : ℚ) (c : ℕ) (st : FlipFluid) (i : ℕ) :
    (FlipFluid.gatherStep fr c st i).particleVel.length =
      st.particleVel.length := by
  unfold FlipFluid.gatherStep
  dsimp only
  split
  · simp [qset_length]
  · rfl

/-- A gather pass leaves a velocity slot untouched when no processed
particle owns it. -/
theorem gatherFold_untouched (fr : ℚ) (c : ℕ) :
    ∀ (l : List ℕ) (a : FlipFluid) (k : ℤ),
      (∀ j ∈ l, (2 * (j : ℤ) + (c : ℤ)) ≠ k) →
      qget ((l.foldl (FlipFluid.gatherStep fr c) a).particleVel) k =
        qget a.particleVel k
  | [], _, _, _ => rfl
  | j :: l, a, k, h => by
    have h1 := gatherFold_untouched fr c l (FlipFluid.gatherStep fr c a j) k
      (fun j2 hj2 => h j2 (List.mem_cons_of_mem _ hj2))
    have h2 := gatherStep_other fr c a j k
      (Ne.symm (h j (List.mem_cons_self _ _)))
    exact h1.trans h2

/-- The value a gather pass leaves in the velocity slot of particle `i`,
component `c`, computed against the pre-pass state `st`: the fold may be
started from any state `a` that differs from `st` only in the velocity
buffer while agreeing with it on every slot of the still-unprocessed
particles. -/
theorem gatherFold_out (fr : ℚ) (c : ℕ) (st : FlipFluid) :
    ∀ (l : List ℕ) (a : FlipFluid), l.Nodup →
      a = { st with particleVel := a.particleVel } →
      a.particleVel.length = st.particleVel.length →
      (∀ j ∈ l, qget a.particleVel (2 * (j : ℤ) + (c : ℤ)) =
        qget st.particleVel (2 * (j : ℤ) + (c : ℤ))) →
      ∀ i ∈ l, 2 * i + c < st.particleVel.length →
        qget ((l.foldl (FlipFluid.gatherStep fr c) a).particleVel)
          (2 * (i : ℤ) + (c : ℤ)) =
          (if FlipFluid.totalWeightAt st c i > 0
          then (1 - fr) * FlipFluid.picVAt st c i +
            fr * (qget st.particleVel (2 * (i : ℤ) + (c : ℤ)) +
              FlipFluid.corrAt st c i)
          else qget st.particleVel (2 * (i : ℤ) + (c : ℤ)))
  | [], _, _, _, _, _, i, hi, _ => absurd hi (List.not_mem_nil i)
  | j :: l, a, hnd, hfr, hlen, hvals, i, hi, hislot => by
    have hstep_fr : FlipFluid.gatherStep fr c a j =
        { st with particleVel := (FlipFluid.gatherStep fr c a j).particleVel } := by
      obtain ⟨pv1, h1⟩ := gatherStep_frame fr c a j
      rw [h1, hfr]
    have hstep_len : (FlipFluid.gatherStep fr c a j).particleVel.length =
        st.particleVel.length := (gatherStep_len fr c a j).trans hlen
    rcases List.mem_cons.mp hi with hij | hil
    · subst hij
      have hnotin : i ∉ l := (List.nodup_cons.mp hnd).1
      have huntouched := gatherFold_untouched fr c l
        (FlipFluid.gatherStep fr c a i) (2 * (i : ℤ) + (c : ℤ))
        (fun j2 hj2 => by
          have : j2 ≠ i := fun hh => hnotin (hh ▸ hj2)
          omega)
      show qget ((l.foldl (FlipFluid.gatherStep fr c)
        (FlipFluid.gatherStep fr c a i)).particleVel) (2 * (i : ℤ) + (c : ℤ)) = _
      rw [huntouched]
      have hself := gatherStep_self fr c a i (by omega)
      rw [hself]
      have hwa : FlipFluid.totalWeightAt a c i = FlipFluid.totalWeightAt st c i := by
        conv_lhs => rw [hfr]
        exact totalWeightAt_pv st a.particleVel c i
      have hpa : FlipFluid.picVAt a c i = FlipFluid.picVAt st c i := by
        conv_lhs => rw [hfr]
        exact picVAt_pv st a.particleVel c i
      have hca : FlipFluid.corrAt a c i = FlipFluid.corrAt st c i := by
        conv_lhs => rw [hfr]
        exact corrAt_pv st a.particleVel c i
      rw [hwa, hpa, hca, hvals i (List.mem_cons_self _ _)]
    · have hnd2 := (List.nodup_cons.mp hnd).2
      have hvals2 : ∀ j2 ∈ l,
          qget (FlipFluid.gatherStep fr c a j).particleVel
            (2 * (j2 : ℤ) + (c : ℤ)) =
          qget st.particleVel (2 * (j2 : ℤ) + (c : ℤ)) := by
        intro j2 hj2
        have hne : j2 ≠ j := by
          intro hh
          exact (List.nodup_cons.mp hnd).1 (hh ▸ hj2)
        rw [gatherStep_other fr c a j _ (by omega)]
        exact hvals j2 (List.mem_cons_of_mem _ hj2)
      exact gatherFold_out fr c st l (FlipFluid.gatherStep fr c a j) hnd2
        hstep_fr hstep_len hvals2 i hil hislot

/-- A gather pass preserves the length of the velocity buffer. -/
theorem gatherFold_len (fr : ℚ) (c : ℕ) (l : List ℕ) (a : FlipFluid) :
    ((l.foldl (FlipFluid.gatherStep fr c) a).particleVel).length =
      a.particleVel.length := by
  refine foldl_pres
    (fun b => b.particleVel.length = a.particleVel.length) _ ?_ l a rfl
  intro b j hb
  rw [gatherStep_len]
  exact hb

/-- C4: in the grid-to-particle transfer, for each particle and each
velocity component, if the total validity-weighted bilinear weight over the
4 surrounding nodes is positive, the new particle velocity is
`(1 - flipRatio) * picV + flipRatio * (oldVelocity + corr)`, where `picV`
and `corr` are the validity-weighted averages of the current grid velocity
and of its change since the pre-projection snapshot; if the total valid
weight is 0, that velocity component is left unchanged. -/
theorem C4_gather_postcondition (fr : ℚ) (st : FlipFluid) (c i : ℕ)
    (hc : c < 2) (hi : i < st.numParticles)
    (hlen : 2 * i + c < st.particleVel.length) :
    (FlipFluid.totalWeightAt st c i > 0 →
      qget (FlipFluid.transferVelocities false fr st).particleVel
        (2 * (i : ℤ) + (c : ℤ)) =
        (1 - fr) * FlipFluid.picVAt st c i +
          fr * (qget st.particleVel (2 * (i : ℤ) + (c : ℤ)) +
            FlipFluid.corrAt st c i)) ∧
    (FlipFluid.totalWeightAt st c i = 0 →
      qget (FlipFluid.transferVelocities false fr st).particleVel
        (2 * (i : ℤ) + (c : ℤ)) =
        qget st.particleVel (2 * (i : ℤ) + (c : ℤ))) := by
  have key : qget (FlipFluid.transferVelocities false fr st).particleVel
      (2 * (i : ℤ) + (c : ℤ)) =
      (if FlipFluid.totalWeightAt st c i > 0
      then (1 - fr) * FlipFluid.picVAt st c i +
        fr * (qget st.particleVel (2 * (i : ℤ) + (c : ℤ)) +
          FlipFluid.corrAt st c i)
      else qget st.particleVel (2 * (i : ℤ) + (c : ℤ))) := by
    rw [transfer_false_eq]
    obtain ⟨pvA, hA⟩ :=
      gatherFold_frame fr 0 (List.range st.numParticles) st
    have hAnum : ((List.range st.numParticles).foldl
        (FlipFluid.gatherStep fr 0) st).numParticles = st.numParticles := by
      rw [hA]
    have hAlen : ((List.range st.numParticles).foldl
        (FlipFluid.gatherStep fr 0) st).particleVel.length =
        st.particleVel.length := gatherFold_len fr 0 _ st
    have hc2 : c = 0 ∨ c = 1 := by omega
    rcases hc2 with hc0 | hc1
    · subst hc0
      have hout := gatherFold_out fr 0 st (List.range st.numParticles) st
        (List.nodup_range _) rfl rfl (fun _ _ => rfl) i
        (List.mem_range.mpr hi) hlen
      have huntouched := gatherFold_untouched fr 1
        (List.range ((List.range st.numParticles).foldl
          (FlipFluid.gatherStep fr 0) st).numParticles)
        ((List.range st.numParticles).foldl (FlipFluid.gatherStep fr 0) st)
        (2 * (i : ℤ) + ((0 : ℕ) : ℤ)) (fun j _ => by omega)
      rw [huntouched, hout]
    · subst hc1
      have hvals : ∀ j ∈ List.range ((List.range st.numParticles).foldl
          (FlipFluid.gatherStep fr 0) st).numParticles,
          qget ((List.range st.numParticles).foldl
            (FlipFluid.gatherStep fr 0) st).particleVel
            (2 * (j : ℤ) + ((1 : ℕ) : ℤ)) =
          qget st.particleVel (2 * (j : ℤ) + ((1 : ℕ) : ℤ)) := by
        intro j _
        exact gatherFold_untouched fr 0 (List.range st.numParticles) st
          (2 * (j : ℤ) + ((1 : ℕ) : ℤ)) (fun j2 _ => by omega)
      have hA2 : (List.range st.numParticles).foldl
          (FlipFluid.gatherStep fr 0) st =
          { st with particleVel := ((List.range st.numParticles).foldl
            (FlipFluid.gatherStep fr 0) st).particleVel } := by
        rw [hA]
      exact gatherFold_out fr 1 st
        (List.range ((List.range st.numParticles).foldl
          (FlipFluid.gatherStep fr 0) st).numParticles)
        ((List.range st.numParticles).foldl (FlipFluid.gatherStep fr 0) st)
        (List.nodup_range _) hA2 hAlen hvals i
        (List.mem_range.mpr (by rw [hAnum]; exact hi)) hlen
  constructor
  · intro h
    rw [key, if_pos h]
  · intro h
    rw [key, if_neg (by rw [h]; exact lt_irrefl 0)]

/-- Witness for C4: the single particle of the 4x4 test state after a
gather pass with `flipRatio = 1/2`: its total valid weight is positive, so
its new u-velocity is the prescribed PIC/FLIP blend. -/
theorem C4_gather_postcondition_witness :
    qget (FlipFluid.transferVelocities false (1 / 2)
      (tinyState (3 / 2) (3 / 2))).particleVel
      (2 * ((0 : ℕ) : ℤ) + ((0 : ℕ) : ℤ)) =
      (1 - 1 / 2) * FlipFluid.picVAt (tinyState (3 / 2) (3 / 2)) 0 0 +
        1 / 2 * (qget (tinyState (3 / 2) (3 / 2)).particleVel
          (2 * ((0 : ℕ) : ℤ) + ((0 : ℕ) : ℤ)) +
          FlipFluid.corrAt (tinyState (3 / 2) (3 / 2)) 0 0) :=
  (C4_gather_postcondition (1 / 2) (tinyState (3 / 2) (3 / 2)) 0 0
    (by decide) (by decide) (by decide)).1 (by decide)

/-! ### Frame relations through the pipeline

`Rigid a b` says that `b` agrees with `a` on every field the solver never
rewrites during a tick (geometry, open fractions, capacities, `numParticles`)
and that the particle-position buffer kept its length; `Frame a b`
additionally keeps the rest density.  Every phase of the pipeline except
`updateParticleDensity` satisfies `Frame`; `updateParticleDensity` satisfies
`Rigid`, and `Frame` when the stored rest density is nonzero. -/

def Rigid (a b : FlipFluid) : Prop :=
  b.density = a.density ∧ b.fNumX = a.fNumX ∧ b.fNumY = a.fNumY ∧
  b.h = a.h ∧ b.fInvSpacing = a.fInvSpacing ∧ b.fNumCells = a.fNumCells ∧
  b.s = a.s ∧ b.maxParticles = a.maxParticles ∧
  b.particleRadius = a.particleRadius ∧ b.pInvSpacing = a.pInvSpacing ∧
  b.pNumX = a.pNumX ∧ b.pNumY = a.pNumY ∧ b.pNumCells = a.pNumCells ∧
  b.numParticles = a.numParticles ∧
  b.particlePos.length = a.particlePos.length

def Frame (a b : FlipFluid) : Prop :=
  Rigid a b ∧ b.particleRestDensity = a.particleRestDensity

theorem Rigid_refl (a : FlipFluid) : Rigid a a :=
  ⟨rfl, rfl, rfl, rfl, rfl, rfl, rfl, rfl, rfl, rfl, rfl, rfl, rfl, rfl, rfl⟩

theorem Rigid_trans {a b c : FlipFluid} (h1 : Rigid a b) (h2 : Rigid b c) :
    Rigid a c := by
  obtain ⟨x1, x2, x3, x4, x5, x6, x7, x8, x9, x10, x11, x12, x13, x14, x15⟩ := h1
  obtain ⟨y1, y2, y3, y4, y5, y6, y7, y8, y9, y10, y11, y12, y13, y14, y15⟩ := h2
  exact ⟨y1.trans x1, y2.trans x2, y3.trans x3, y4.trans x4, y5.trans x5,
    y6.trans x6, y7.trans x7, y8.trans x8, y9.trans x9, y10.trans x10,
    y11.trans x11, y12.trans x12, y13.trans x13, y14.trans x14,
    y15.trans x15⟩

theorem Frame_refl (a : FlipFluid) : Frame a a := ⟨Rigid_refl a, rfl⟩

theorem Frame_trans {a b c : FlipFluid} (h1 : Frame a b) (h2 : Frame b c) :
    Frame a c := ⟨Rigid_trans h1.1 h2.1, h2.2.trans h1.2⟩

theorem Frame_posvel (a : FlipFluid) (pv pp : List ℚ)
    (hl : pp.length = a.particlePos.length) :
    Frame a { a with particleVel := pv, particlePos := pp } :=
  ⟨⟨rfl, rfl, rfl, rfl, rfl, rfl, rfl, rfl, rfl, rfl, rfl, rfl, rfl, rfl, hl⟩,
    rfl⟩

theorem Frame_poscolor (a : FlipFluid) (pp pc : List ℚ)
    (hl : pp.length = a.particlePos.length) :
    Frame a { a with particlePos := pp, particleColor := pc } :=
  ⟨⟨rfl, rfl, rfl, rfl, rfl, rfl, rfl, rfl, rfl, rfl, rfl, rfl, rfl, rfl, hl⟩,
    rfl⟩

theorem Frame_vel (a : FlipFluid) (pv : List ℚ) :
    Frame a { a with particleVel := pv } :=
  ⟨⟨rfl, rfl, rfl, rfl, rfl, rfl, rfl, rfl, rfl, rfl, rfl, rfl, rfl, rfl, rfl⟩,
    rfl⟩

theorem Frame_u (a : FlipFluid) (u2 : List ℚ) : Frame a { a with u := u2 } :=
  ⟨⟨rfl, rfl, rfl, rfl, rfl, rfl, rfl, rfl, rfl, rfl, rfl, rfl, rfl, rfl, rfl⟩,
    rfl⟩

theorem Frame_v (a : FlipFluid) (v2 : List ℚ) : Frame a { a with v := v2 } :=
  ⟨⟨rfl, rfl, rfl, rfl, rfl, rfl, rfl, rfl, rfl, rfl, rfl, rfl, rfl, rfl, rfl⟩,
    rfl⟩

theorem Frame_puv (a : FlipFluid) (p2 u2 v2 : List ℚ) :
    Frame a { a with p := p2, u := u2, v := v2 } :=
  ⟨⟨rfl, rfl, rfl, rfl, rfl, rfl, rfl, rfl, rfl, rfl, rfl, rfl, rfl, rfl, rfl⟩,
    rfl⟩

theorem Frame_color (a : FlipFluid) (pc : List ℚ) :
    Frame a { a with particleColor := pc } :=
  ⟨⟨rfl, rfl, rfl, rfl, rfl, rfl, rfl, rfl, rfl, rfl, rfl, rfl, rfl, rfl, rfl⟩,
    rfl⟩

theorem Frame_cellcolor (a : FlipFluid) (cc : List ℚ) :
    Frame a { a with cellColor := cc } :=
  ⟨⟨rfl, rfl, rfl, rfl, rfl, rfl, rfl, rfl, rfl, rfl, rfl, rfl, rfl, rfl, rfl⟩,
    rfl⟩

theorem Frame_celltype (a : FlipFluid) (ct : List ℤ) :
    Frame a { a with cellType := ct } :=
  ⟨⟨rfl, rfl, rfl, rfl, rfl, rfl, rfl, rfl, rfl, rfl, rfl, rfl, rfl, rfl, rfl⟩,
    rfl⟩

theorem Frame_hash (a : FlipFluid) (x y z : List ℤ) :
    Frame a { a with numCellParticles := x, firstCellParticle := y, cellParticleIds := z } :=
  ⟨⟨rfl, rfl, rfl, rfl, rfl, rfl, rfl, rfl, rfl, rfl, rfl, rfl, rfl, rfl, rfl⟩,
    rfl⟩

theorem Frame_scatterpre (a : FlipFluid) (pu pv du2 dv2 u2 v2 : List ℚ) :
    Frame a { a with prevU := pu, prevV := pv, du := du2, dv := dv2, u := u2, v := v2 } :=
  ⟨⟨rfl, rfl, rfl, rfl, rfl, rfl, rfl, rfl, rfl, rfl, rfl, rfl, rfl, rfl, rfl⟩,
    rfl⟩

theorem Frame_solvepre (a : FlipFluid) (p2 pu pv : List ℚ) :
    Frame a { a with p := p2, prevU := pu, prevV := pv } :=
  ⟨⟨rfl, rfl, rfl, rfl, rfl, rfl, rfl, rfl, rfl, rfl, rfl, rfl, rfl, rfl, rfl⟩,
    rfl⟩

theorem Rigid_density (a : FlipFluid) (d : List ℚ) (r : ℚ) :
    Rigid a { a with particleDensity := d, particleRestDensity := r } :=
  ⟨rfl, rfl, rfl, rfl, rfl, rfl, rfl, rfl, rfl, rfl, rfl, rfl, rfl, rfl, rfl⟩

theorem Rigid_densityOnly (a : FlipFluid) (d : List ℚ) :
    Rigid a { a with particleDensity := d } :=
  ⟨rfl, rfl, rfl, rfl, rfl, rfl, rfl, rfl, rfl, rfl, rfl, rfl, rfl, rfl, rfl⟩

/-- A fold whose every step extends `Frame` preserves `Frame`. -/
theorem Frame_foldl {β : Type} (f : FlipFluid → β → FlipFluid)
    (hf : ∀ a b, Frame a (f a b)) (l : List β) (a : FlipFluid) :
    Frame a (l.foldl f a) :=
  foldl_pres (fun b => Frame a b) f
    (fun b i hb => Frame_trans hb (hf b i)) l a (Frame_refl a)

theorem integrateStep_frame (dt g d : ℚ) (a : FlipFluid) (i : ℕ) :
    Frame a (FlipFluid.integrateStep dt g d a i) := by
  unfold FlipFluid.integrateStep
  dsimp only
  exact Frame_posvel _ _ _ (by simp [qset_length])

theorem integrateParticles_frame (dt g d : ℚ) (a : FlipFluid) :
    Frame a (FlipFluid.integrateParticles dt g d a) :=
  Frame_foldl _ (integrateStep_frame dt g d) _ a

theorem sepPush_frame (sq : ℚ → ℚ) (md : ℚ) (i : ℕ) (px py : ℚ)
    (a : FlipFluid) (id : ℤ) :
    Frame a (FlipFluid.sepPush sq md i px py a id) := by
  unfold FlipFluid.sepPush
  split
  · exact Frame_refl a
  dsimp only
  split
  · exact Frame_refl a
  · exact Frame_poscolor _ _ _ (by simp [qset_length])

theorem sepScanCell_frame (sq : ℚ → ℚ) (md : ℚ) (i : ℕ) (px py : ℚ)
    (a : FlipFluid) (cellNr : ℤ) :
    Frame a (FlipFluid.sepScanCell sq md i px py a cellNr) := by
  unfold FlipFluid.sepScanCell
  exact Frame_foldl _ (fun b k => sepPush_frame sq md i px py b _) _ a

theorem sepParticle_frame (sq : ℚ → ℚ) (md : ℚ) (a : FlipFluid) (i : ℕ) :
    Frame a (FlipFluid.sepParticle sq md a i) := by
  unfold FlipFluid.sepParticle
  dsimp only
  refine Frame_foldl _ (fun b j => ?_) _ a
  exact Frame_foldl _ (fun b2 k => sepScanCell_frame sq md i _ _ b2 _) _ b

theorem buildHash_frame (a : FlipFluid) : Frame a (FlipFluid.buildHash a) := by
  unfold FlipFluid.buildHash
  dsimp only
  exact Frame_hash _ _ _ _

theorem pushParticlesApart_frame (sq : ℚ → ℚ) (n : ℕ) (a : FlipFluid) :
    Frame a (FlipFluid.pushParticlesApart sq n a) := by
  unfold FlipFluid.pushParticlesApart
  dsimp only
  refine Frame_trans (buildHash_frame a) ?_
  refine Frame_foldl _ (fun b j => ?_) _ _
  exact Frame_foldl _ (fun b2 k => sepParticle_frame sq _ b2 k) _ b

theorem collideStep_frame (ox oy orad ovx ovy : ℚ) (sq : ℚ → ℚ)
    (a : FlipFluid) (i : ℕ) :
    Frame a (FlipFluid.collideStep ox oy orad ovx ovy sq a i) := by
  unfold FlipFluid.collideStep
  dsimp only
  exact Frame_posvel _ _ _ (by simp [qset_length])

theorem handleParticleCollisions_frame (ox oy orad ovx ovy : ℚ)
    (sq : ℚ → ℚ) (a : FlipFluid) :
    Frame a (FlipFluid.handleParticleCollisions ox oy orad ovx ovy sq a) :=
  Frame_foldl _ (collideStep_frame ox oy orad ovx ovy sq) _ a

theorem classifyCells_frame (a : FlipFluid) :
    Frame a (FlipFluid.classifyCells a) := by
  unfold FlipFluid.classifyCells
  exact Frame_celltype _ _

theorem fAdd_frame (a : FlipFluid) (c : ℕ) (i : ℤ) (v : ℚ) :
    Frame a (FlipFluid.fAdd a c i v) := by
  unfold FlipFluid.fAdd
  split
  · exact Frame_u _ _
  · exact Frame_v _ _

theorem wAdd_frame (a : FlipFluid) (c : ℕ) (i : ℤ) (v : ℚ) :
    Frame a (FlipFluid.wAdd a c i v) := by
  unfold FlipFluid.wAdd
  split
  · exact ⟨⟨rfl, rfl, rfl, rfl, rfl, rfl, rfl, rfl, rfl, rfl, rfl, rfl, rfl,
      rfl, rfl⟩, rfl⟩
  · exact ⟨⟨rfl, rfl, rfl, rfl, rfl, rfl, rfl, rfl, rfl, rfl, rfl, rfl, rfl,
      rfl, rfl⟩, rfl⟩

theorem scatterStep_frame (c : ℕ) (a : FlipFluid) (i : ℕ) :
    Frame a (FlipFluid.scatterStep c a i) := by
  unfold FlipFluid.scatterStep
  dsimp only
  refine Frame_trans ?_ (wAdd_frame _ c _ _)
  refine Frame_trans ?_ (fAdd_frame _ c _ _)
  refine Frame_trans ?_ (wAdd_frame _ c _ _)
  refine Frame_trans ?_ (fAdd_frame _ c _ _)
  refine Frame_trans ?_ (wAdd_frame _ c _ _)
  refine Frame_trans ?_ (fAdd_frame _ c _ _)
  refine Frame_trans ?_ (wAdd_frame _ c _ _)
  exact fAdd_frame a c _ _

theorem restoreSolid_frame (a : FlipFluid) :
    Frame a (FlipFluid.restoreSolid a) := by
  unfold FlipFluid.restoreSolid
  dsimp only
  refine Frame_foldl _ (fun b j => ?_) _ a
  refine Frame_foldl _ (fun b2 k => ?_) _ b
  dsimp only
  split
  · split
    · exact Frame_trans (Frame_u _ _) (Frame_v _ _)
    · exact Frame_u _ _
  · split
    · exact Frame_v _ _
    · exact Frame_refl b2

theorem transferVelocities_frame (toGrid : Bool) (fr : ℚ) (a : FlipFluid) :
    Frame a (FlipFluid.transferVelocities toGrid fr a) := by
  unfold FlipFluid.transferVelocities
  dsimp only
  have h1 : Frame a (if toGrid then
      FlipFluid.classifyCells
        { a with prevU := a.u, prevV := a.v,
                 du := List.replicate a.du.length 0,
                 dv := List.replicate a.dv.length 0,
                 u := List.replicate a.u.length 0,
                 v := List.replicate a.v.length 0 }
    else a) := by
    split
    · refine Frame_trans ?_ (classifyCells_frame _)
      exact Frame_scatterpre _ _ _ _ _ _ _
    · exact Frame_refl a
  refine Frame_trans h1 ?_
  refine Frame_foldl _ (fun b c => ?_) _ _
  have h2 : Frame b ((List.range b.numParticles).foldl
      (fun s i => if toGrid then FlipFluid.scatterStep c s i
        else FlipFluid.gatherStep fr c s i) b) := by
    refine Frame_foldl _ (fun b2 i => ?_) _ b
    split
    · exact scatterStep_frame c b2 i
    · obtain ⟨pv, hpv⟩ := gatherStep_frame fr c b2 i
      rw [hpv]
      exact Frame_vel _ _
  refine Frame_trans h2 ?_
  split
  · refine Frame_trans ?_ (restoreSolid_frame _)
    split
    · exact Frame_u _ _
    · exact Frame_v _ _
  · exact Frame_refl _

theorem solveCell_frame (dt orx : ℚ) (cd : Bool) (a : FlipFluid) (i j : ℤ) :
    Frame a (FlipFluid.solveCell dt orx cd a i j) := by
  unfold FlipFluid.solveCell
  dsimp only
  split
  · exact Frame_refl a
  · split
    · exact Frame_refl a
    · exact Frame_puv _ _ _ _

theorem solveIncompressibility_frame (n : ℕ) (dt orx : ℚ) (cd : Bool)
    (a : FlipFluid) :
    Frame a (FlipFluid.solveIncompressibility n dt orx cd a) := by
  unfold FlipFluid.solveIncompressibility
  dsimp only
  have h0 : Frame a { a with p := List.replicate a.p.length 0, prevU := a.u, prevV := a.v } :=
    Frame_solvepre a _ _ _
  refine Frame_trans h0 ?_
  refine Frame_foldl _ (fun b j => ?_) _ _
  refine Frame_foldl _ (fun b2 k => ?_) _ b
  exact Frame_foldl _ (fun b3 m => solveCell_frame dt orx cd b3 _ _) _ b2

theorem colorStep_frame (a : FlipFluid) (i : ℕ) :
    Frame a (FlipFluid.colorStep a i) := by
  unfold FlipFluid.colorStep
  dsimp only
  exact Frame_color _ _

theorem updateParticleColors_frame (a : FlipFluid) :
    Frame a (FlipFluid.updateParticleColors a) :=
  Frame_foldl _ colorStep_frame _ a

theorem setSciColor_frame (a : FlipFluid) (c : ℤ) (v mn mx : ℚ) :
    Frame a (FlipFluid.setSciColor a c v mn mx) := by
  unfold FlipFluid.setSciColor
  dsimp only
  exact Frame_cellcolor _ _

theorem updateCellColors_frame (a : FlipFluid) :
    Frame a (FlipFluid.updateCellColors a) := by
  unfold FlipFluid.updateCellColors
  dsimp only
  have h0 : Frame a { a with cellColor := List.replicate a.cellColor.length 0 } :=
    Frame_cellcolor a _
  refine Frame_trans h0 ?_
  refine Frame_foldl _ (fun b i => ?_) _ _
  split
  · exact Frame_cellcolor _ _
  · split
    · exact setSciColor_frame _ _ _ _ _
    · exact Frame_refl b

theorem updateParticleDensity_rigid (a : FlipFluid) :
    Rigid a (FlipFluid.updateParticleDensity a) := by
  unfold FlipFluid.updateParticleDensity
  dsimp only
  split
  · split
    · exact Rigid_density _ _ _
    · exact Rigid_densityOnly _ _
  · exact Rigid_densityOnly _ _

/-- While the stored rest density is nonzero, `updateParticleDensity` leaves
it unchanged (the one-shot guard of lines 293-305). -/
theorem updateParticleDensity_frame_of_ne (a : FlipFluid)
    (h : a.particleRestDensity ≠ 0) :
    Frame a (FlipFluid.updateParticleDensity a) := by
  unfold FlipFluid.updateParticleDensity
  dsimp only
  rw [if_neg h]
  exact ⟨Rigid_densityOnly _ _, rfl⟩

/-- One substep keeps the `Rigid` fields. -/
theorem substep_rigid (p : SimParams) (sdt : ℚ) (a : FlipFluid) :
    Rigid a (FlipFluid.substep p sdt a) := by
  unfold FlipFluid.substep FlipFluid.preDensityState
  dsimp only
  have h2 : Frame a (if p.separateParticles then
      FlipFluid.pushParticlesApart p.sq p.numParticleIters
        (FlipFluid.integrateParticles sdt p.gravity p.damping a)
    else FlipFluid.integrateParticles sdt p.gravity p.damping a) := by
    split
    · exact Frame_trans (integrateParticles_frame sdt p.gravity p.damping a)
        (pushParticlesApart_frame _ _ _)
    · exact integrateParticles_frame sdt p.gravity p.damping a
  have hpre : Frame a (FlipFluid.transferVelocities true 0
      (FlipFluid.handleParticleCollisions p.obstacleX p.obstacleY
        p.obstacleRadius p.obstacleVelX p.obstacleVelY p.sq
        (if p.separateParticles then
          FlipFluid.pushParticlesApart p.sq p.numParticleIters
            (FlipFluid.integrateParticles sdt p.gravity p.damping a)
        else FlipFluid.integrateParticles sdt p.gravity p.damping a))) := by
    refine Frame_trans h2 ?_
    exact Frame_trans (handleParticleCollisions_frame _ _ _ _ _ _ _)
      (transferVelocities_frame true 0 _)
  refine Rigid_trans ?_ (handleParticleCollisions_frame _ _ _ _ _ _ _).1
  refine Rigid_trans ?_ (transferVelocities_frame false p.flipRatio _).1
  refine Rigid_trans ?_ (solveIncompressibility_frame _ _ _ _ _).1
  refine Rigid_trans ?_ (updateParticleDensity_rigid _)
  exact hpre.1

/-- One full tick keeps the `Rigid` fields. -/
theorem simulate_rigid (p : SimParams) (a : FlipFluid) :
    Rigid a (FlipFluid.simulate p a) := by
  unfold FlipFluid.simulate
  dsimp only
  have h1 : Rigid a ((List.range 1).foldl
      (fun s _ => FlipFluid.substep p (p.dt / ((1 : ℕ) : ℚ)) s) a) := by
    refine foldl_pres (fun b => Rigid a b) _ (fun b i hb => ?_) _ a
      (Rigid_refl a)
    exact Rigid_trans hb (substep_rigid p _ b)
  refine Rigid_trans h1 ?_
  exact Rigid_trans (updateParticleColors_frame _).1 (updateCellColors_frame _).1

/-! ### C2: boundary containment -/

theorem collideStep_pos_other (ox oy orad ovx ovy : ℚ) (sq : ℚ → ℚ)
    (b : FlipFluid) (i : ℕ) (k : ℤ) (h1 : k ≠ 2 * (i : ℤ))
    (h2 : k ≠ 2 * (i : ℤ) + 1) :
    qget (FlipFluid.collideStep ox oy orad ovx ovy sq b i).particlePos k =
      qget b.particlePos k := by
  unfold FlipFluid.collideStep
  dsimp only
  rw [qget_qset_ne _ _ _ _ (Ne.symm h2), qget_qset_ne _ _ _ _ (Ne.symm h1)]

/-- After its own collision step, a particle's x-coordinate lies within the
wall bounds computed by the step (provided the interval is nonempty). -/
theorem collideStep_x_bound (ox oy orad ovx ovy : ℚ) (sq : ℚ → ℚ)
    (b : FlipFluid) (i : ℕ) (hlen : 2 * i < b.particlePos.length)
    (hne : 1 / b.fInvSpacing + b.particleRadius ≤
      ((b.fNumX : ℚ) - 1) * (1 / b.fInvSpacing) - b.particleRadius) :
    1 / b.fInvSpacing + b.particleRadius ≤
      qget (FlipFluid.collideStep ox oy orad ovx ovy sq b i).particlePos
        (2 * (i : ℤ)) ∧
    qget (FlipFluid.collideStep ox oy orad ovx ovy sq b i).particlePos
        (2 * (i : ℤ)) ≤
      ((b.fNumX : ℚ) - 1) * (1 / b.fInvSpacing) - b.particleRadius := by
  unfold FlipFluid.collideStep
  dsimp only
  rw [qget_qset_ne _ _ _ _ (by omega), qget_qset_eq _ _ _ (by omega) (by omega)]
  simp only [apply_ite (Prod.fst : ℚ × List ℚ → ℚ),
    apply_ite (Prod.fst : ℚ × (ℚ × List ℚ) → ℚ)]
  split_ifs <;> constructor <;> linarith

/-- A collision pass leaves a position slot untouched when no processed
particle owns it. -/
theorem collideFold_pos_untouched (ox oy orad ovx ovy : ℚ) (sq : ℚ → ℚ) :
    ∀ (l : List ℕ) (b : FlipFluid) (k : ℤ),
      (∀ j ∈ l, k ≠ 2 * (j : ℤ) ∧ k ≠ 2 * (j : ℤ) + 1) →
      qget ((l.foldl (FlipFluid.collideStep ox oy orad ovx ovy sq)
        b).particlePos) k = qget b.particlePos k
  | [], _, _, _ => rfl
  | j :: l, b, k, h => by
    have h1 := collideFold_pos_untouched ox oy orad ovx ovy sq l
      (FlipFluid.collideStep ox oy orad ovx ovy sq b j) k
      (fun j2 hj2 => h j2 (List.mem_cons_of_mem _ hj2))
    have h2 := collideStep_pos_other ox oy orad ovx ovy sq b j k
      (h j (List.mem_cons_self _ _)).1 (h j (List.mem_cons_self _ _)).2
    exact h1.trans h2

/-- After a collision pass, the x-coordinate of every processed particle
lies within the wall bounds of the reference state `st`. -/
theorem collideFold_x_bound (ox oy orad ovx ovy : ℚ) (sq : ℚ → ℚ)
    (st : FlipFluid)
    (hne : 1 / st.fInvSpacing + st.particleRadius ≤
      ((st.fNumX : ℚ) - 1) * (1 / st.fInvSpacing) - st.particleRadius) :
    ∀ (l : List ℕ) (b : FlipFluid), l.Nodup → Rigid st b →
      ∀ i ∈ l, 2 * i + 1 < st.particlePos.length →
        1 / st.fInvSpacing + st.particleRadius ≤
          qget ((l.foldl (FlipFluid.collideStep ox oy orad ovx ovy sq)
            b).particlePos) (2 * (i : ℤ)) ∧
        qget ((l.foldl (FlipFluid.collideStep ox oy orad ovx ovy sq)
            b).particlePos) (2 * (i : ℤ)) ≤
          ((st.fNumX : ℚ) - 1) * (1 / st.fInvSpacing) - st.particleRadius
  | [], _, _, _, i, hi, _ => absurd hi (List.not_mem_nil i)
  | j :: l, b, hnd, hR, i, hi, hil => by
    obtain ⟨r1, r2, r3, r4, r5, r6, r7, r8, r9, r10, r11, r12, r13, r14, r15⟩ :=
      hR
    rcases List.mem_cons.mp hi with hij | hitail
    · subst hij
      have hnotin : i ∉ l := (List.nodup_cons.mp hnd).1
      have hstep := collideStep_x_bound ox oy orad ovx ovy sq b i
        (by omega) (by rw [r2, r5, r9]; exact hne)
      have huntouched := collideFold_pos_untouched ox oy orad ovx ovy sq l
        (FlipFluid.collideStep ox oy orad ovx ovy sq b i) (2 * (i : ℤ))
        (fun j2 hj2 => by
          have : j2 ≠ i := fun hh => hnotin (hh ▸ hj2)
          constructor <;> omega)
      rw [List.foldl_cons, huntouched]
      rw [r2, r5, r9] at hstep
      exact hstep
    · have hR2 : Rigid st (FlipFluid.collideStep ox oy orad ovx ovy sq b j) :=
        Rigid_trans ⟨r1, r2, r3, r4, r5, r6, r7, r8, r9, r10, r11, r12, r13,
          r14, r15⟩ (collideStep_frame ox oy orad ovx ovy sq b j).1
      exact collideFold_x_bound ox oy orad ovx ovy sq st hne l
        (FlipFluid.collideStep ox oy orad ovx ovy sq b j)
        (List.nodup_cons.mp hnd).2 hR2 i hitail hil

theorem preDensityState_frame (p : SimParams) (sdt : ℚ) (a : FlipFluid) :
    Frame a (FlipFluid.preDensityState p sdt a) := by
  unfold FlipFluid.preDensityState
  dsimp only
  have h2 : Frame a (if p.separateParticles then
      FlipFluid.pushParticlesApart p.sq p.numParticleIters
        (FlipFluid.integrateParticles sdt p.gravity p.damping a)
    else FlipFluid.integrateParticles sdt p.gravity p.damping a) := by
    split
    · exact Frame_trans (integrateParticles_frame sdt p.gravity p.damping a)
        (pushParticlesApart_frame _ _ _)
    · exact integrateParticles_frame sdt p.gravity p.damping a
  refine Frame_trans h2 ?_
  exact Frame_trans (handleParticleCollisions_frame _ _ _ _ _ _ _)
    (transferVelocities_frame true 0 _)

theorem updateParticleColors_pos (a : FlipFluid) :
    (FlipFluid.updateParticleColors a).particlePos = a.particlePos := by
  unfold FlipFluid.updateParticleColors
  refine foldl_pres (fun b : FlipFluid => b.particlePos = a.particlePos) _
    (fun b i hb => ?_) _ a rfl
  unfold FlipFluid.colorStep
  dsimp only
  exact hb

theorem updateCellColors_pos (a : FlipFluid) :
    (FlipFluid.updateCellColors a).particlePos = a.particlePos := by
  unfold FlipFluid.updateCellColors
  dsimp only
  refine foldl_pres (fun b : FlipFluid => b.particlePos = a.particlePos) _
    (fun b i hb => ?_) _ _ rfl
  split
  · exact hb
  · split
    · unfold FlipFluid.setSciColor
      dsimp only
      exact hb
    · exact hb

/-- The state handed to the final collision pass of a substep, and its
rigidity. -/
theorem substep_collide2_rigid (p : SimParams) (sdt : ℚ) (st : FlipFluid) :
    Rigid st (FlipFluid.transferVelocities false p.flipRatio
      (FlipFluid.solveIncompressibility p.numPressureIters sdt
        p.overRelaxation p.compensateDrift
        (FlipFluid.updateParticleDensity
          (FlipFluid.preDensityState p sdt st)))) := by
  refine Rigid_trans ?_ (transferVelocities_frame false p.flipRatio _).1
  refine Rigid_trans ?_ (solveIncompressibility_frame _ _ _ _ _).1
  refine Rigid_trans ?_ (updateParticleDensity_rigid _)
  exact (preDensityState_frame p sdt st).1

/-- C2: after one call to `simulate`, the x-coordinate of every active
particle lies within `[h + r, (fNumX - 1) * h - r]`, where `h` is the cell
size and `r` the particle radius (assuming the stored `fInvSpacing` is the
reciprocal of the cell size and that the interval is nonempty).
The final collision pass clamps every x-coordinate into the interval and the
color passes leave positions untouched. -/
theorem C2_boundary_containment (p : SimParams) (st : FlipFluid)
    (hwf : st.fInvSpacing = 1 / st.h)
    (hne : st.h + st.particleRadius ≤
      ((st.fNumX : ℚ) - 1) * st.h - st.particleRadius)
    (hlen : 2 * st.numParticles ≤ st.particlePos.length)
    (i : ℕ) (hi : i < (FlipFluid.simulate p st).numParticles) :
    st.h + st.particleRadius ≤
      qget (FlipFluid.simulate p st).particlePos (2 * (i : ℤ)) ∧
    qget (FlipFluid.simulate p st).particlePos (2 * (i : ℤ)) ≤
      ((st.fNumX : ℚ) - 1) * st.h - st.particleRadius := by
  have hinv : 1 / st.fInvSpacing = st.h := by
    rw [hwf, one_div_one_div]
  have hnum : (FlipFluid.simulate p st).numParticles = st.numParticles :=
    (simulate_rigid p st).2.2.2.2.2.2.2.2.2.2.2.2.2.1
  have hsim : FlipFluid.simulate p st =
      FlipFluid.updateCellColors (FlipFluid.updateParticleColors
        (FlipFluid.handleParticleCollisions p.obstacleX p.obstacleY
          p.obstacleRadius p.obstacleVelX p.obstacleVelY p.sq
          (FlipFluid.transferVelocities false p.flipRatio
            (FlipFluid.solveIncompressibility p.numPressureIters
              (p.dt / ((1 : ℕ) : ℚ)) p.overRelaxation p.compensateDrift
              (FlipFluid.updateParticleDensity
                (FlipFluid.preDensityState p (p.dt / ((1 : ℕ) : ℚ)) st)))))) :=
    rfl
  have hR7 := substep_collide2_rigid p (p.dt / ((1 : ℕ) : ℚ)) st
  have hn7 : (FlipFluid.transferVelocities false p.flipRatio
      (FlipFluid.solveIncompressibility p.numPressureIters
        (p.dt / ((1 : ℕ) : ℚ)) p.overRelaxation p.compensateDrift
        (FlipFluid.updateParticleDensity
          (FlipFluid.preDensityState p (p.dt / ((1 : ℕ) : ℚ))
            st)))).numParticles = st.numParticles :=
    hR7.2.2.2.2.2.2.2.2.2.2.2.2.2.1
  have hbound := collideFold_x_bound p.obstacleX p.obstacleY p.obstacleRadius
    p.obstacleVelX p.obstacleVelY p.sq st (by rw [hinv]; exact hne)
    (List.range (FlipFluid.transferVelocities false p.flipRatio
      (FlipFluid.solveIncompressibility p.numPressureIters
        (p.dt / ((1 : ℕ) : ℚ)) p.overRelaxation p.compensateDrift
        (FlipFluid.updateParticleDensity
          (FlipFluid.preDensityState p (p.dt / ((1 : ℕ) : ℚ))
            st)))).numParticles)
    (FlipFluid.transferVelocities false p.flipRatio
      (FlipFluid.solveIncompressibility p.numPressureIters
        (p.dt / ((1 : ℕ) : ℚ)) p.overRelaxation p.compensateDrift
        (FlipFluid.updateParticleDensity
          (FlipFluid.preDensityState p (p.dt / ((1 : ℕ) : ℚ)) st))))
    (List.nodup_range _) hR7 i
    (List.mem_range.mpr (by rw [hn7]; rw [hnum] at hi; exact hi))
    (by rw [hnum] at hi; omega)
  rw [hinv] at hbound
  rw [hsim, updateCellColors_pos, updateParticleColors_pos]
  exact hbound

/-- Witness for C2 on the concrete 4x4 one-particle state. -/
theorem C2_boundary_containment_witness :
    (tinyState (3 / 2) (3 / 2)).h + (tinyState (3 / 2) (3 / 2)).particleRadius ≤
      qget (FlipFluid.simulate noObsParams
        (tinyState (3 / 2) (3 / 2))).particlePos (2 * ((0 : ℕ) : ℤ)) ∧
    qget (FlipFluid.simulate noObsParams
        (tinyState (3 / 2) (3 / 2))).particlePos (2 * ((0 : ℕ) : ℤ)) ≤
      (((tinyState (3 / 2) (3 / 2)).fNumX : ℚ) - 1) *
        (tinyState (3 / 2) (3 / 2)).h -
        (tinyState (3 / 2) (3 / 2)).particleRadius :=
  C2_boundary_containment noObsParams (tinyState (3 / 2) (3 / 2)) (by decide)
    (by decide) (by decide) 0 (by decide)

/-! ### C5: the classification characterized -/

theorem zsetFold_length (g : ℕ → ℤ) (l : List ℤ) (m : ℕ) :
    ((List.range m).foldl (fun a (k : ℕ) => zset a (k : ℤ) (g k)) l).length =
      l.length :=
  foldl_pres (fun a2 => a2.length = l.length) _
    (fun a2 _ h => (zset_length a2 _ _).trans h) _ l rfl

theorem zsetAll_get (g : ℕ → ℤ) (l : List ℤ) :
    ∀ (m c : ℕ), c < m → m ≤ l.length →
      zget ((List.range m).foldl (fun a (k : ℕ) => zset a (k : ℤ) (g k)) l) (c : ℤ) =
        g c
  | 0, c, hc, _ => absurd hc (by omega)
  | m + 1, c, hc, hm => by
    rw [List.range_succ, List.foldl_append, List.foldl_cons, List.foldl_nil]
    by_cases hcm : c = m
    · subst hcm
      exact zget_zset_eq _ _ _ (by omega)
        (by rw [zsetFold_length]; omega)
    · rw [zget_zset_ne _ _ _ _ (by omega)]
      exact zsetAll_get g l m c (by omega) (by omega)

theorem clamp_mem (x hi : ℤ) (h : 0 ≤ hi) :
    0 ≤ clamp x 0 hi ∧ clamp x 0 hi ≤ hi := by
  unfold clamp
  split_ifs <;> omega

theorem pOwnerCell_bounds (st : FlipFluid) (hx : 1 ≤ st.fNumX)
    (hy : 1 ≤ st.fNumY) (k : ℕ) :
    0 ≤ FlipFluid.pOwnerCell st k ∧
      FlipFluid.pOwnerCell st k < st.fNumX * st.fNumY := by
  unfold FlipFluid.pOwnerCell
  dsimp only
  obtain ⟨h1, h2⟩ := clamp_mem ⌊qget st.particlePos (2 * (k : ℤ)) *
    st.fInvSpacing⌋ (st.fNumX - 1) (by omega)
  obtain ⟨h3, h4⟩ := clamp_mem ⌊qget st.particlePos (2 * (k : ℤ) + 1) *
    st.fInvSpacing⌋ (st.fNumY - 1) (by omega)
  constructor
  · have := mul_nonneg h1 (by omega : (0 : ℤ) ≤ st.fNumY)
    omega
  · have h5 : clamp ⌊qget st.particlePos (2 * (k : ℤ)) * st.fInvSpacing⌋ 0
        (st.fNumX - 1) * st.fNumY ≤ (st.fNumX - 1) * st.fNumY :=
      mul_le_mul_of_nonneg_right h2 (by omega)
    have h6 : (st.fNumX - 1) * st.fNumY = st.fNumX * st.fNumY - st.fNumY := by
      ring
    omega

/-- The promotion fold of the classification: starting from a buffer that is
SOLID exactly on `s = 0` cells and records the owners of an already-processed
particle list `M`, processing `L` more particles yields the buffer recording
the owners of `M ++ L`. -/
theorem promoteFold_get (st : FlipFluid) (N : ℕ)
    (howner : ∀ k : ℕ, 0 ≤ FlipFluid.pOwnerCell st k ∧
      (FlipFluid.pOwnerCell st k).toNat < N) :
    ∀ (L M : List ℕ) (ct : List ℤ), ct.length = N →
      (∀ c : ℤ, 0 ≤ c → c.toNat < N →
        zget ct c = if qget st.s c = 0 then SOLID_CELL
          else if ∃ k ∈ M, FlipFluid.pOwnerCell st k = c then FLUID_CELL
          else AIR_CELL) →
      ∀ c : ℤ, 0 ≤ c → c.toNat < N →
        zget (L.foldl (fun ct2 k =>
          let cellNr := FlipFluid.pOwnerCell st k
          if zget ct2 cellNr = AIR_CELL then zset ct2 cellNr FLUID_CELL
          else ct2) ct) c =
          if qget st.s c = 0 then SOLID_CELL
          else if ∃ k ∈ M ++ L, FlipFluid.pOwnerCell st k = c then FLUID_CELL
          else AIR_CELL
  | [], M, ct, _, hinv, c, hc0, hcN => by
    rw [List.foldl_nil, List.append_nil]
    exact hinv c hc0 hcN
  | k0 :: L, M, ct, hlen, hinv, c, hc0, hcN => by
    rw [List.foldl_cons]
    have hstep : ∀ c2 : ℤ, 0 ≤ c2 → c2.toNat < N →
        zget (if zget ct (FlipFluid.pOwnerCell st k0) = AIR_CELL
          then zset ct (FlipFluid.pOwnerCell st k0) FLUID_CELL else ct) c2 =
          if qget st.s c2 = 0 then SOLID_CELL
          else if ∃ k ∈ M ++ [k0], FlipFluid.pOwnerCell st k = c2
          then FLUID_CELL else AIR_CELL := by
      intro c2 hc20 hc2N
      have hmem : ∀ c3 : ℤ, (∃ k ∈ M ++ [k0],
          FlipFluid.pOwnerCell st k = c3) ↔
          ((∃ k ∈ M, FlipFluid.pOwnerCell st k = c3) ∨
            FlipFluid.pOwnerCell st k0 = c3) := by
        intro c3
        constructor
        · rintro ⟨k, hk, hko⟩
          rcases List.mem_append.mp hk with h | h
          · exact Or.inl ⟨k, h, hko⟩
          · rcases List.mem_singleton.mp h with rfl
            exact Or.inr hko
        · rintro (⟨k, hk, hko⟩ | ho)
          · exact ⟨k, List.mem_append.mpr (Or.inl hk), hko⟩
          · exact ⟨k0, List.mem_append.mpr (Or.inr (List.mem_singleton.mpr
              rfl)), ho⟩
      have hoN : 0 ≤ FlipFluid.pOwnerCell st k0 ∧
          (FlipFluid.pOwnerCell st k0).toNat < N := howner k0
      by_cases hair : zget ct (FlipFluid.pOwnerCell st k0) = AIR_CELL
      · rw [if_pos hair]
        by_cases hco : c2 = FlipFluid.pOwnerCell st k0
        · rw [hco, zget_zset_eq _ _ _ hoN.1 (by omega)]
          have hold := hinv (FlipFluid.pOwnerCell st k0) hoN.1 (by omega)
          rw [hold] at hair
          by_cases hs : qget st.s (FlipFluid.pOwnerCell st k0) = 0
          · rw [if_pos hs] at hair
            exact absurd hair (by decide)
          · rw [if_neg hs] at hair
            rw [if_neg hs, if_pos ((hmem _).mpr (Or.inr rfl))]
        · rw [zget_zset_ne _ _ _ _ (fun hh => hco hh.symm)]
          rw [hinv c2 hc20 hc2N]
          by_cases hs : qget st.s c2 = 0
          · rw [if_pos hs, if_pos hs]
          · rw [if_neg hs, if_neg hs]
            have hiff : (∃ k ∈ M ++ [k0], FlipFluid.pOwnerCell st k = c2) ↔
                (∃ k ∈ M, FlipFluid.pOwnerCell st k = c2) := by
              rw [hmem c2]
              constructor
              · rintro (h | h)
                · exact h
                · exact absurd h (fun hh => hco hh.symm)
              · exact Or.inl
            rcases Classical.em (∃ k ∈ M, FlipFluid.pOwnerCell st k = c2)
              with hex | hex
            · rw [if_pos hex, if_pos (hiff.mpr hex)]
            · rw [if_neg hex, if_neg (fun hh => hex (hiff.mp hh))]
      · rw [if_neg hair]
        rw [hinv c2 hc20 hc2N]
        by_cases hco : c2 = FlipFluid.pOwnerCell st k0
        · rw [hco]
          have hold := hinv (FlipFluid.pOwnerCell st k0) hoN.1 (by omega)
          rw [hold] at hair
          by_cases hs : qget st.s (FlipFluid.pOwnerCell st k0) = 0
          · rw [if_pos hs, if_pos hs]
          · rw [if_neg hs] at hair
            rw [if_neg hs, if_neg hs]
            rcases Classical.em (∃ k ∈ M, FlipFluid.pOwnerCell st k =
              FlipFluid.pOwnerCell st k0) with hex | hex
            · rw [if_pos hex, if_pos ((hmem _).mpr (Or.inl hex))]
            · rw [if_neg hex] at hair
              exact absurd rfl hair
        · by_cases hs : qget st.s c2 = 0
          · rw [if_pos hs, if_pos hs]
          · rw [if_neg hs, if_neg hs]
            have hiff : (∃ k ∈ M ++ [k0], FlipFluid.pOwnerCell st k = c2) ↔
                (∃ k ∈ M, FlipFluid.pOwnerCell st k = c2) := by
              rw [hmem c2]
              constructor
              · rintro (h | h)
                · exact h
                · exact absurd h (fun hh => hco hh.symm)
              · exact Or.inl
            rcases Classical.em (∃ k ∈ M, FlipFluid.pOwnerCell st k = c2)
              with hex | hex
            · rw [if_pos hex, if_pos (hiff.mpr hex)]
            · rw [if_neg hex, if_neg (fun hh => hex (hiff.mp hh))]
    have hlen2 : (if zget ct (FlipFluid.pOwnerCell st k0) = AIR_CELL
        then zset ct (FlipFluid.pOwnerCell st k0) FLUID_CELL
        else ct).length = N := by
      split
      · rw [zset_length]
        exact hlen
      · exact hlen
    have hres := promoteFold_get st N howner L (M ++ [k0])
      (if zget ct (FlipFluid.pOwnerCell st k0) = AIR_CELL
        then zset ct (FlipFluid.pOwnerCell st k0) FLUID_CELL else ct)
      hlen2 hstep c hc0 hcN
    rw [List.append_assoc] at hres
    rw [List.singleton_append] at hres
    exact hres

/-- C5 (amended): after the classification run at the start of the scatter
phase, every in-range cell with `s == 0` has type SOLID; every other cell is
FLUID exactly when some active particle's clamped owning cell is that cell,
and AIR otherwise.  (Boundary cells are SOLID only insofar as their `s` is
0; the classification itself never inspects the cell's position.) -/
theorem C5_classification_amended (st : FlipFluid)
    (hlen : st.cellType.length = st.fNumCells.toNat)
    (hcells : st.fNumCells = st.fNumX * st.fNumY)
    (hx : 1 ≤ st.fNumX) (hy : 1 ≤ st.fNumY)
    (i j : ℤ) (hi0 : 0 ≤ i) (hix : i < st.fNumX) (hj0 : 0 ≤ j)
    (hjy : j < st.fNumY) :
    zget (FlipFluid.classifyCells st).cellType (i * st.fNumY + j) =
      if qget st.s (i * st.fNumY + j) = 0 then SOLID_CELL
      else if ∃ k ∈ Finset.range st.numParticles,
        FlipFluid.pOwnerCell st k = i * st.fNumY + j then FLUID_CELL
      else AIR_CELL := by
  have hc0 : 0 ≤ i * st.fNumY + j := by
    have h7 := mul_nonneg hi0 (by omega : (0 : ℤ) ≤ st.fNumY)
    omega
  have hcN : (i * st.fNumY + j).toNat < st.fNumCells.toNat := by
    have h5 : i * st.fNumY ≤ (st.fNumX - 1) * st.fNumY :=
      mul_le_mul_of_nonneg_right (by omega) (by omega)
    have h6 : (st.fNumX - 1) * st.fNumY = st.fNumX * st.fNumY - st.fNumY := by
      ring
    omega
  have howner : ∀ k : ℕ, 0 ≤ FlipFluid.pOwnerCell st k ∧
      (FlipFluid.pOwnerCell st k).toNat < st.fNumCells.toNat := by
    intro k
    obtain ⟨hh1, hh2⟩ := pOwnerCell_bounds st hx hy k
    exact ⟨hh1, by omega⟩
  unfold FlipFluid.classifyCells
  dsimp only
  have hbase : ∀ c : ℤ, 0 ≤ c → c.toNat < st.fNumCells.toNat →
      zget ((List.range st.fNumCells.toNat).foldl
        (fun ct (i2 : ℕ) => zset ct (i2 : ℤ)
          (if qget st.s (i2 : ℤ) = 0 then SOLID_CELL else AIR_CELL))
        st.cellType) c =
      if qget st.s c = 0 then SOLID_CELL
      else if ∃ k ∈ ([] : List ℕ), FlipFluid.pOwnerCell st k = c
      then FLUID_CELL else AIR_CELL := by
    intro c h0 hN2
    have hcast : ((c.toNat : ℕ) : ℤ) = c := Int.toNat_of_nonneg h0
    rw [← hcast]
    rw [zsetAll_get (fun k => if qget st.s (k : ℤ) = 0 then SOLID_CELL
      else AIR_CELL) st.cellType st.fNumCells.toNat c.toNat hN2 (by omega)]
    simp only [List.not_mem_nil, false_and, exists_false, if_false]
  have hlen1 : ((List.range st.fNumCells.toNat).foldl
      (fun ct (i2 : ℕ) => zset ct (i2 : ℤ)
        (if qget st.s (i2 : ℤ) = 0 then SOLID_CELL else AIR_CELL))
      st.cellType).length = st.fNumCells.toNat := by
    rw [zsetFold_length]
    exact hlen
  have hres := promoteFold_get st st.fNumCells.toNat howner
    (List.range st.numParticles) []
    ((List.range st.fNumCells.toNat).foldl
      (fun ct (i2 : ℕ) => zset ct (i2 : ℤ)
        (if qget st.s (i2 : ℤ) = 0 then SOLID_CELL else AIR_CELL))
      st.cellType) hlen1 hbase (i * st.fNumY + j) hc0 hcN
  rw [List.nil_append] at hres
  simp only [List.mem_range] at hres
  simp only [Finset.mem_range]
  exact hres

/-- Witness for the amended C5 at the interior FLUID cell `(1,1)` of the
concrete 4x4 state. -/
theorem C5_classification_amended_witness :
    zget (FlipFluid.classifyCells (tinyState (3 / 2) (3 / 2))).cellType
      (1 * (tinyState (3 / 2) (3 / 2)).fNumY + 1) = FLUID_CELL := by
  have h := C5_classification_amended (tinyState (3 / 2) (3 / 2)) (by decide)
    (by decide) (by decide) (by decide) 1 1 (by decide) (by decide)
    (by decide) (by decide)
  rw [h, if_neg (by decide), if_pos ⟨0, by decide, by decide⟩]

/-! ### C1: rest-density calibration -/

/-- The cells currently classified FLUID (flat indices). -/
def fluidCells (st : FlipFluid) : List ℕ :=
  (List.range st.fNumCells.toNat).filter
    (fun (c : ℕ) => zget st.cellType (c : ℤ) = FLUID_CELL)

/-- The mean of the freshly scattered density over the FLUID cells: the
value the one-shot calibration of `updateParticleDensity` stores. -/
def calibTarget (st : FlipFluid) : ℚ :=
  ((fluidCells st).map
    (fun (c : ℕ) => qget (FlipFluid.densitySplat st) (c : ℤ))).sum /
    ((fluidCells st).length : ℚ)

/-- The calibration fold of `updateParticleDensity` accumulates exactly the
sum and the count of the density over FLUID cells. -/
theorem sumCount_fold (st : FlipFluid) (d : List ℚ) :
    ∀ (L : List ℕ) (acc : ℚ × ℕ),
      L.foldl (fun acc2 (i : ℕ) =>
        if zget st.cellType (i : ℤ) = FLUID_CELL
        then (acc2.1 + qget d (i : ℤ), acc2.2 + 1) else acc2) acc =
      (acc.1 + ((L.filter
          (fun (c : ℕ) => zget st.cellType (c : ℤ) = FLUID_CELL)).map
          (fun (c : ℕ) => qget d (c : ℤ))).sum,
        acc.2 + (L.filter
          (fun (c : ℕ) => zget st.cellType (c : ℤ) = FLUID_CELL)).length)
  | [], acc => by simp
  | c :: L, acc => by
    rw [List.foldl_cons]
    by_cases h : zget st.cellType (c : ℤ) = FLUID_CELL
    · rw [if_pos h, sumCount_fold st d L _]
      simp only [List.filter_cons, h]
      simp only [decide_eq_true_eq, if_pos, List.map_cons, List.sum_cons,
        List.length_cons, if_true]
      rw [Prod.mk.injEq]
      constructor
      · ring
      · omega
    · rw [if_neg h, sumCount_fold st d L acc]
      simp only [List.filter_cons, h]
      simp only [decide_eq_true_eq, if_false]

/-- When the stored rest density is 0 and at least one FLUID cell exists,
`updateParticleDensity` stores the mean scattered density over the FLUID
cells. -/
theorem updateParticleDensity_calibrates (st : FlipFluid)
    (h0 : st.particleRestDensity = 0) (hf : fluidCells st ≠ []) :
    (FlipFluid.updateParticleDensity st).particleRestDensity =
      calibTarget st := by
  unfold FlipFluid.updateParticleDensity
  dsimp only
  rw [if_pos h0, sumCount_fold st (FlipFluid.densitySplat st) _ _]
  have hpos : 0 < (fluidCells st).length := List.length_pos.mpr hf
  unfold fluidCells at hpos
  split
  · dsimp only
    unfold calibTarget fluidCells
    norm_num
  · exfalso
    omega

/-- When the stored rest density is 0 and no FLUID cell exists,
`updateParticleDensity` leaves it at 0. -/
theorem updateParticleDensity_no_fluid (st : FlipFluid)
    (h0 : st.particleRestDensity = 0) (hf : fluidCells st = []) :
    (FlipFluid.updateParticleDensity st).particleRestDensity = 0 := by
  unfold FlipFluid.updateParticleDensity
  dsimp only
  rw [if_pos h0, sumCount_fold st (FlipFluid.densitySplat st) _ _]
  have hlen0 : (fluidCells st).length = 0 := by rw [hf]; rfl
  unfold fluidCells at hlen0
  split
  · exfalso
    omega
  · exact h0

/-- The tick's rest density is whatever the density phase stored. -/
theorem simulate_restDensity_eq (p : SimParams) (st : FlipFluid) :
    (FlipFluid.simulate p st).particleRestDensity =
      (FlipFluid.updateParticleDensity
        (FlipFluid.preDensityState p (p.dt / ((1 : ℕ) : ℚ))
          st)).particleRestDensity := by
  have hsim : FlipFluid.simulate p st =
      FlipFluid.updateCellColors (FlipFluid.updateParticleColors
        (FlipFluid.handleParticleCollisions p.obstacleX p.obstacleY
          p.obstacleRadius p.obstacleVelX p.obstacleVelY p.sq
          (FlipFluid.transferVelocities false p.flipRatio
            (FlipFluid.solveIncompressibility p.numPressureIters
              (p.dt / ((1 : ℕ) : ℚ)) p.overRelaxation p.compensateDrift
              (FlipFluid.updateParticleDensity
                (FlipFluid.preDensityState p (p.dt / ((1 : ℕ) : ℚ)) st)))))) :=
    rfl
  rw [hsim, (updateCellColors_frame _).2, (updateParticleColors_frame _).2,
    (handleParticleCollisions_frame _ _ _ _ _ _ _).2,
    (transferVelocities_frame false _ _).2,
    (solveIncompressibility_frame _ _ _ _ _).2]

/-- A tick leaves a nonzero rest density unchanged. -/
theorem simulate_restDensity_of_ne (p : SimParams) (st : FlipFluid)
    (h : st.particleRestDensity ≠ 0) :
    (FlipFluid.simulate p st).particleRestDensity =
      st.particleRestDensity := by
  rw [simulate_restDensity_eq]
  rw [(updateParticleDensity_frame_of_ne _ (by
    rw [(preDensityState_frame p _ st).2]
    exact h)).2]
  exact (preDensityState_frame p _ st).2

/-- Any number of ticks, with arbitrary per-tick parameters, leaves a
nonzero rest density unchanged. -/
theorem runTicks_restDensity :
    ∀ (ps : List SimParams) (st : FlipFluid), st.particleRestDensity ≠ 0 →
      (FlipFluid.runTicks ps st).particleRestDensity = st.particleRestDensity
  | [], _, _ => rfl
  | p :: ps, st, h => by
    show (FlipFluid.runTicks ps (FlipFluid.simulate p st)).particleRestDensity
      = _
    rw [runTicks_restDensity ps (FlipFluid.simulate p st)
      (by rw [simulate_restDensity_of_ne p st h]; exact h),
      simulate_restDensity_of_ne p st h]

/-- C1 (amended): `particleRestDensity` starts at 0; while it is 0, a tick
whose classification produces no FLUID cell leaves it at 0, and the first
tick in which at least one cell is classified FLUID sets it to the mean
scattered density over the FLUID cells; once the stored value is nonzero,
any number of further ticks, with any particle distribution and any
per-tick parameters, leaves it unchanged.  (The one-shot property of the
original claim fails exactly when that first computed mean is 0, which the
recorded counterexample exhibits.) -/
theorem C1_rest_density_amended :
    (∀ density width height spacing r : ℚ, ∀ mp : ℕ,
      (FlipFluid.construct density width height spacing r
        mp).particleRestDensity = 0) ∧
    (∀ (ps : List SimParams) (st : FlipFluid), st.particleRestDensity ≠ 0 →
      (FlipFluid.runTicks ps st).particleRestDensity =
        st.particleRestDensity) ∧
    (∀ (p : SimParams) (st : FlipFluid), st.particleRestDensity = 0 →
      (fluidCells (FlipFluid.preDensityState p (p.dt / ((1 : ℕ) : ℚ)) st) ≠ []
        → (FlipFluid.simulate p st).particleRestDensity =
          calibTarget (FlipFluid.preDensityState p (p.dt / ((1 : ℕ) : ℚ)) st))
      ∧
      (fluidCells (FlipFluid.preDensityState p (p.dt / ((1 : ℕ) : ℚ)) st) = []
        → (FlipFluid.simulate p st).particleRestDensity = 0)) := by
  refine ⟨fun _ _ _ _ _ _ => rfl, runTicks_restDensity, fun p st h0 => ⟨?_, ?_⟩⟩
  · intro hf
    rw [simulate_restDensity_eq]
    exact updateParticleDensity_calibrates _
      (by rw [(preDensityState_frame p _ st).2]; exact h0) hf
  · intro hf
    rw [simulate_restDensity_eq]
    exact updateParticleDensity_no_fluid _
      (by rw [(preDensityState_frame p _ st).2]; exact h0) hf

/-- Witness for the amended C1: the calibration tick of the concrete 4x4
state stores the fluid-cell mean. -/
theorem C1_rest_density_amended_witness :
    (FlipFluid.simulate noObsParams
      (tinyState (3 / 2) (3 / 2))).particleRestDensity =
      calibTarget (FlipFluid.preDensityState noObsParams
        (noObsParams.dt / ((1 : ℕ) : ℚ)) (tinyState (3 / 2) (3 / 2))) :=
  (C1_rest_density_amended.2.2 noObsParams (tinyState (3 / 2) (3 / 2))
    (by decide)).1 (by decide)

/-! ### C8: counting-sort hash build -/

/-- Number of particles among the first `n` whose hash cell is `c`. -/
def csCount (hash : ℕ → ℤ) (n : ℕ) (c : ℤ) : ℕ :=
  ((List.range n).filter (fun (i : ℕ) => hash i = c)).length

/-- Number of particles among the first `n` whose hash cell is below `k`. -/
def csBelow (hash : ℕ → ℤ) (n k : ℕ) : ℕ :=
  Finset.sum (Finset.range k) (fun c => csCount hash n (c : ℤ))

theorem csCount_succ (hash : ℕ → ℤ) (n : ℕ) (c : ℤ) :
    csCount hash (n + 1) c =
      csCount hash n c + (if hash n = c then 1 else 0) := by
  unfold csCount
  rw [List.range_succ, List.filter_append]
  by_cases h : hash n = c
  · simp [h]
  · simp [h]

theorem csCount_mono (hash : ℕ → ℤ) (c : ℤ) :
    ∀ {t t2 : ℕ}, t ≤ t2 → csCount hash t c ≤ csCount hash t2 c := by
  intro t t2 h
  unfold csCount
  exact List.Sublist.length_le
    (List.Sublist.filter _ ((List.range_sublist).mpr h))

theorem csBelow_succ (hash : ℕ → ℤ) (n k : ℕ) :
    csBelow hash n (k + 1) = csBelow hash n k + csCount hash n (k : ℤ) :=
  Finset.sum_range_succ _ k

theorem csBelow_mono (hash : ℕ → ℤ) (n : ℕ) {k k2 : ℕ} (h : k ≤ k2) :
    csBelow hash n k ≤ csBelow hash n k2 :=
  Finset.sum_le_sum_of_subset (Finset.range_subset.mpr h)

theorem csCount_le_csBelow (hash : ℕ → ℤ) (n k : ℕ) :
    csCount hash n (k : ℤ) ≤ csBelow hash n (k + 1) := by
  rw [csBelow_succ]
  omega

/-- Every particle hashes into exactly one cell, so the counts over all `m`
cells total `n`. -/
theorem csBelow_total (hash : ℕ → ℤ) (m : ℕ) :
    ∀ n : ℕ, (∀ i, i < n → 0 ≤ hash i ∧ hash i < (m : ℤ)) →
      csBelow hash n m = n
  | 0, _ => by
    unfold csBelow csCount
    simp
  | n + 1, H => by
    have hprev := csBelow_total hash m n (fun i hi => H i (by omega))
    unfold csBelow
    have hsum : ∀ c ∈ Finset.range m,
        csCount hash (n + 1) (c : ℤ) =
          csCount hash n (c : ℤ) + (if (hash n).toNat = c then 1 else 0) := by
      intro c _
      rw [csCount_succ]
      have hH := H n (by omega)
      by_cases h : hash n = (c : ℤ)
      · rw [if_pos h, if_pos (by omega)]
      · rw [if_neg h, if_neg (by omega)]
    rw [Finset.sum_congr rfl hsum, Finset.sum_add_distrib]
    have hone : (Finset.sum (Finset.range m)
        (fun c => if (hash n).toNat = c then 1 else 0)) = 1 := by
      rw [Finset.sum_ite_eq]
      rw [if_pos (Finset.mem_range.mpr (by have := H n (by omega); omega))]
    unfold csBelow at hprev
    omega

theorem zget_replicate (m : ℕ) (c : ℤ) : zget (List.replicate m (0 : ℤ)) c = 0 := by
  unfold zget
  split
  · rcases Nat.lt_or_ge c.toNat m with h | h
    · rw [List.getD_eq_getElem _ _ (by simpa using h)]
      simp
    · rw [List.getD_eq_default _ _ (by simpa using h)]
  · rfl

theorem csHist_length (hash : ℕ → ℤ) (n : ℕ) (cnt0 : List ℤ) :
    (FlipFluid.csHist hash n cnt0).length = cnt0.length := by
  unfold FlipFluid.csHist
  exact foldl_pres (fun a => a.length = cnt0.length) _
    (fun a i h => (zset_length _ _ _).trans h) _ cnt0 rfl

/-- The histogram phase counts the particles per hash cell. -/
theorem csHist_get (hash : ℕ → ℤ) (m : ℕ) :
    ∀ n : ℕ, (∀ i, i < n → 0 ≤ hash i ∧ hash i < (m : ℤ)) →
      ∀ c : ℤ, 0 ≤ c → c.toNat < m →
        zget (FlipFluid.csHist hash n (List.replicate m 0)) c = csCount hash n c
  | 0, _, c, _, _ => by
    rw [show FlipFluid.csHist hash 0 (List.replicate m 0) = List.replicate m 0 from rfl,
      zget_replicate]
    unfold csCount
    simp
  | n + 1, H, c, hc0, hcm => by
    have hlen : (FlipFluid.csHist hash n (List.replicate m 0)).length = m :=
      (csHist_length hash n _).trans (List.length_replicate _ _)
    have hstep : FlipFluid.csHist hash (n + 1) (List.replicate m 0) =
        zset (FlipFluid.csHist hash n (List.replicate m 0)) (hash n)
          (zget (FlipFluid.csHist hash n (List.replicate m 0)) (hash n) + 1) := by
      unfold FlipFluid.csHist
      rw [List.range_succ, List.foldl_append, List.foldl_cons, List.foldl_nil]
    rw [hstep, csCount_succ]
    have hH := H n (by omega)
    by_cases h : hash n = c
    · rw [h, zget_zset_eq _ _ _ hc0 (by omega), if_pos rfl,
        csHist_get hash m n (fun i hi => H i (by omega)) c hc0 hcm]
      omega
    · rw [zget_zset_ne _ _ _ _ h, if_neg h,
        csHist_get hash m n (fun i hi => H i (by omega)) c hc0 hcm]
      omega

/-- Partial characterisation of the running-total loop of `csCum`. -/
theorem csCum_loop (cnt first0 : List ℤ) :
    ∀ m2 : ℕ, m2 ≤ first0.length →
      ((List.range m2).foldl
        (fun acc (i : ℕ) => (acc.1 + zget cnt (i : ℤ),
          zset acc.2 (i : ℤ) (acc.1 + zget cnt (i : ℤ)))) ((0 : ℤ), first0)).1 =
        ((List.range m2).map (fun (j : ℕ) => zget cnt (j : ℤ))).sum ∧
      ((List.range m2).foldl
        (fun acc (i : ℕ) => (acc.1 + zget cnt (i : ℤ),
          zset acc.2 (i : ℤ) (acc.1 + zget cnt (i : ℤ)))) ((0 : ℤ), first0)).2.length =
        first0.length ∧
      (∀ c : ℕ, c < m2 →
        zget ((List.range m2).foldl
          (fun acc (i : ℕ) => (acc.1 + zget cnt (i : ℤ),
            zset acc.2 (i : ℤ) (acc.1 + zget cnt (i : ℤ)))) ((0 : ℤ), first0)).2
          (c : ℤ) =
          ((List.range (c + 1)).map (fun (j : ℕ) => zget cnt (j : ℤ))).sum)
  | 0, _ => by
    refine ⟨by simp, rfl, ?_⟩
    intro c hc
    omega
  | m2 + 1, hm2 => by
    obtain ⟨ih1, ih2, ih3⟩ := csCum_loop cnt first0 m2 (by omega)
    rw [List.range_succ, List.foldl_append, List.foldl_cons, List.foldl_nil]
    refine ⟨?_, ?_, ?_⟩
    · show (_ + zget cnt (m2 : ℤ)) = _
      rw [ih1, List.map_append, List.sum_append]
      simp
    · show (zset _ (m2 : ℤ) _).length = _
      rw [zset_length]
      exact ih2
    · intro c hc
      show zget (zset _ (m2 : ℤ) _) (c : ℤ) = _
      by_cases hcm : c = m2
      · subst hcm
        rw [zget_zset_eq _ _ _ (by omega) (by rw [ih2]; omega), ih1,
          List.sum_range_succ]
      · rw [zget_zset_ne _ _ _ _ (by omega)]
        exact ih3 c (by omega)

/-- Summing the histogram over the cells below `k` counts the particles
hashing below `k`. -/
theorem sum_csHist (hash : ℕ → ℤ) (m n : ℕ)
    (H : ∀ i, i < n → 0 ≤ hash i ∧ hash i < (m : ℤ)) :
    ∀ k : ℕ, k ≤ m →
      ((List.range k).map (fun (j : ℕ) =>
        zget (FlipFluid.csHist hash n (List.replicate m 0)) (j : ℤ))).sum =
      (csBelow hash n k : ℤ)
  | 0, _ => by
    unfold csBelow
    simp
  | k + 1, hk => by
    rw [List.sum_range_succ, sum_csHist hash m n H k (by omega),
      csHist_get hash m n H (k : ℤ) (by omega) (by omega), csBelow_succ]
    push_cast
    ring

/-- The running-total phase stores the exclusive cumulative counts shifted by
one cell: slot `c < m` holds the number of particles hashing to a cell
`≤ c`, and the guard slot `m` holds the total. -/
theorem csCum_get (hash : ℕ → ℤ) (m n : ℕ)
    (H : ∀ i, i < n → 0 ≤ hash i ∧ hash i < (m : ℤ))
    (first0 : List ℤ) (hlen : first0.length = m + 1) :
    (FlipFluid.csCum (FlipFluid.csHist hash n (List.replicate m 0)) m
      first0).length = m + 1 ∧
    (∀ c : ℕ, c < m →
      zget (FlipFluid.csCum (FlipFluid.csHist hash n (List.replicate m 0)) m
        first0) (c : ℤ) = (csBelow hash n (c + 1) : ℤ)) ∧
    zget (FlipFluid.csCum (FlipFluid.csHist hash n (List.replicate m 0)) m
      first0) (m : ℤ) = (csBelow hash n m : ℤ) := by
  obtain ⟨h1, h2, h3⟩ :=
    csCum_loop (FlipFluid.csHist hash n (List.replicate m 0)) first0 m
      (by omega)
  have hcum : FlipFluid.csCum (FlipFluid.csHist hash n (List.replicate m 0)) m
      first0 =
      zset ((List.range m).foldl
        (fun acc (i : ℕ) =>
          (acc.1 + zget (FlipFluid.csHist hash n (List.replicate m 0)) (i : ℤ),
            zset acc.2 (i : ℤ)
              (acc.1 +
                zget (FlipFluid.csHist hash n (List.replicate m 0)) (i : ℤ))))
        ((0 : ℤ), first0)).2 (m : ℤ)
        ((List.range m).foldl
        (fun acc (i : ℕ) =>
          (acc.1 + zget (FlipFluid.csHist hash n (List.replicate m 0)) (i : ℤ),
            zset acc.2 (i : ℤ)
              (acc.1 +
                zget (FlipFluid.csHist hash n (List.replicate m 0)) (i : ℤ))))
        ((0 : ℤ), first0)).1 := rfl
  refine ⟨?_, ?_, ?_⟩
  · rw [hcum, zset_length, h2, hlen]
  · intro c hc
    rw [hcum, zget_zset_ne _ _ _ _ (by omega), h3 c hc]
    exact sum_csHist hash m n H (c + 1) (by omega)
  · rw [hcum, zget_zset_eq _ _ _ (by omega) (by rw [h2, hlen]; omega), h1]
    exact sum_csHist hash m n H m (by omega)

/-- The clamped spatial hash of any particle lands in `[0, pNumX * pNumY)`
whenever both grid dimensions are positive. -/
theorem pHash_bounds (st : FlipFluid) (hx : 1 ≤ st.pNumX)
    (hy : 1 ≤ st.pNumY) (i : ℕ) :
    0 ≤ FlipFluid.pHash st i ∧
      FlipFluid.pHash st i < st.pNumX * st.pNumY := by
  show 0 ≤ clamp ⌊qget st.particlePos (2 * (i : ℤ)) * st.pInvSpacing⌋ 0
      (st.pNumX - 1) * st.pNumY +
      clamp ⌊qget st.particlePos (2 * (i : ℤ) + 1) * st.pInvSpacing⌋ 0
        (st.pNumY - 1) ∧
    clamp ⌊qget st.particlePos (2 * (i : ℤ)) * st.pInvSpacing⌋ 0
      (st.pNumX - 1) * st.pNumY +
      clamp ⌊qget st.particlePos (2 * (i : ℤ) + 1) * st.pInvSpacing⌋ 0
        (st.pNumY - 1) < st.pNumX * st.pNumY
  have h1 := clamp_mem ⌊qget st.particlePos (2 * (i : ℤ)) * st.pInvSpacing⌋
    (st.pNumX - 1) (by omega)
  have h2 := clamp_mem ⌊qget st.particlePos (2 * (i : ℤ) + 1) * st.pInvSpacing⌋
    (st.pNumY - 1) (by omega)
  constructor
  · have := mul_nonneg h1.1 (by omega : (0 : ℤ) ≤ st.pNumY)
    omega
  · have h3 := mul_le_mul_of_nonneg_right h1.2
      (by omega : (0 : ℤ) ≤ st.pNumY)
    nlinarith [h2.2, h2.1]

/-- The slice `[a, b)` of an integer buffer. -/
def seg (l : List ℤ) (a b : ℕ) : List ℤ := (l.take b).drop a

theorem seg_nil (l : List ℤ) (a : ℕ) : seg l a a = [] := by
  unfold seg
  exact List.drop_eq_nil_of_le (by rw [List.length_take]; omega)

/-- A slice splits at any interior point that lies within the buffer. -/
theorem seg_split (l : List ℤ) (a b c : ℕ) (hab : a ≤ b) (hbc : b ≤ c)
    (hbl : b ≤ l.length) : seg l a c = seg l a b ++ seg l b c := by
  have h1 : l.take c = l.take b ++ seg l b c := by
    conv_lhs => rw [← List.take_append_drop b (l.take c)]
    rw [List.take_take, min_eq_left hbc]
    rfl
  show (l.take c).drop a = _
  rw [h1, List.drop_append_eq_append_drop]
  have hlb : (l.take b).length = b := by rw [List.length_take]; omega
  rw [hlb, Nat.sub_eq_zero_of_le hab, List.drop_zero]
  rfl

/-- Writing at an index at or beyond the slice leaves it unchanged. -/
theorem seg_set_ge (l : List ℤ) (a b j : ℕ) (x : ℤ) (h : b ≤ j) :
    seg (l.set j x) a b = seg l a b := by
  unfold seg
  rw [List.set_take]
  congr 1
  refine List.ext_getElem (by rw [List.length_set]) ?_
  intro k h1 h2
  rw [List.getElem_set_ne (by rw [List.length_take] at h2; omega) _]

/-- Writing at an index strictly below the slice leaves it unchanged. -/
theorem seg_set_lt (l : List ℤ) (a b j : ℕ) (x : ℤ) (h : j < a) :
    seg (l.set j x) a b = seg l a b := by
  unfold seg
  rw [List.set_take]
  refine List.ext_getElem
    (by rw [List.length_drop, List.length_drop, List.length_set]) ?_
  intro k h1 h2
  rw [List.getElem_drop, List.getElem_drop]
  exact List.getElem_set_ne (by omega) _

/-- Writing at the left edge of a slice prepends the written value to the
slice starting one position later. -/
theorem seg_set_cons (l : List ℤ) (a b : ℕ) (x : ℤ) (hab : a < b)
    (hal : a < l.length) :
    seg (l.set a x) a b = x :: seg l (a + 1) b := by
  unfold seg
  rw [List.set_take]
  have hlen : a < ((l.take b).set a x).length := by
    rw [List.length_set, List.length_take]
    omega
  rw [List.drop_eq_getElem_cons hlen, List.getElem_set_self]
  congr 1
  refine List.ext_getElem
    (by rw [List.length_drop, List.length_drop, List.length_set]) ?_
  intro k h1 h2
  rw [List.getElem_drop, List.getElem_drop]
  exact List.getElem_set_ne (by omega) _

/-- Each active particle index occurs in a cell's id list exactly when it
hashes there, and then exactly once. -/
theorem count_in_cell (hash : ℕ → ℤ) (n : ℕ) (c : ℤ) (i : ℕ) (hi : i < n) :
    (((List.range n).filter (fun (j : ℕ) => hash j = c)).reverse.map
      (fun (j : ℕ) => (j : ℤ))).count (i : ℤ) =
    if hash i = c then 1 else 0 := by
  have hinj : Function.Injective (fun (j : ℕ) => (j : ℤ)) := fun a b h => by
    simpa using h
  have h1 : (((List.range n).filter (fun (j : ℕ) => hash j = c)).reverse.map
      (fun (j : ℕ) => (j : ℤ))).count (i : ℤ) =
      (((List.range n).filter (fun (j : ℕ) => hash j = c)).reverse).count i :=
    List.count_map_of_injective _ _ hinj i
  rw [h1, List.count_reverse]
  by_cases h : hash i = c
  · rw [if_pos h, List.count_filter (by simpa using h)]
    exact List.count_eq_one_of_mem (List.nodup_range n) (List.mem_range.mpr hi)
  · rw [if_neg h, List.count_eq_zero]
    intro hmem
    exact h (by simpa using (List.mem_filter.mp hmem).2)

/-- Invariant of the fill phase after the first `t` of the `n` particles have
been placed: buffer lengths are preserved, the cursor of cell `c` sits at the
cell's final boundary plus the number of its particles not yet placed, the
guard slot `m` is untouched, and the filled tail of each cell's slice holds
exactly the particles so far that hash there, latest first. -/
theorem csFill_invariant (hash : ℕ → ℤ) (m n : ℕ)
    (H : ∀ i, i < n → 0 ≤ hash i ∧ hash i < (m : ℤ))
    (first1 ids0 : List ℤ) (hf1len : first1.length = m + 1)
    (hf1 : ∀ c : ℕ, c < m →
      zget first1 (c : ℤ) = (csBelow hash n (c + 1) : ℤ))
    (hil : n ≤ ids0.length) :
    ∀ t : ℕ, t ≤ n →
      (FlipFluid.csFill hash t first1 ids0).1.length = m + 1 ∧
      (FlipFluid.csFill hash t first1 ids0).2.length = ids0.length ∧
      (∀ c : ℕ, c < m →
        zget (FlipFluid.csFill hash t first1 ids0).1 (c : ℤ) =
          (csBelow hash n (c + 1) : ℤ) - (csCount hash t (c : ℤ) : ℤ)) ∧
      zget (FlipFluid.csFill hash t first1 ids0).1 (m : ℤ) =
        zget first1 (m : ℤ) ∧
      (∀ c : ℕ, c < m →
        seg (FlipFluid.csFill hash t first1 ids0).2
          (csBelow hash n (c + 1) - csCount hash t (c : ℤ))
          (csBelow hash n (c + 1)) =
        ((List.range t).filter (fun (i : ℕ) => hash i = (c : ℤ))).reverse.map
          (fun (i : ℕ) => (i : ℤ)))
  | 0, _ => by
    refine ⟨hf1len, rfl, ?_, rfl, ?_⟩
    · intro c hc
      have h0 : csCount hash 0 (c : ℤ) = 0 := by
        unfold csCount
        simp
      show zget first1 (c : ℤ) = _
      rw [h0, hf1 c hc]
      simp
    · intro c hc
      have h0 : csCount hash 0 (c : ℤ) = 0 := by
        unfold csCount
        simp
      rw [h0, Nat.sub_zero, seg_nil]
      rfl
  | t + 1, ht => by
    obtain ⟨ih1, ih2, ih3, ih4, ih5⟩ :=
      csFill_invariant hash m n H first1 ids0 hf1len hf1 hil t (by omega)
    have hstep : FlipFluid.csFill hash (t + 1) first1 ids0 =
        FlipFluid.csFillStep hash (FlipFluid.csFill hash t first1 ids0) t := by
      unfold FlipFluid.csFill
      rw [List.range_succ, List.foldl_append, List.foldl_cons, List.foldl_nil]
    have hA : (FlipFluid.csFill hash (t + 1) first1 ids0).1 =
        zset (FlipFluid.csFill hash t first1 ids0).1 (hash t)
          (zget (FlipFluid.csFill hash t first1 ids0).1 (hash t) - 1) := by
      rw [hstep]
      rfl
    have hB : (FlipFluid.csFill hash (t + 1) first1 ids0).2 =
        zset (FlipFluid.csFill hash t first1 ids0).2
          (zget (FlipFluid.csFill hash t first1 ids0).1 (hash t) - 1)
          (t : ℤ) := by
      rw [hstep]
      rfl
    have hHt := H t (by omega)
    have hcN : (((hash t).toNat : ℕ) : ℤ) = hash t := by omega
    have hsucc : csCount hash (t + 1) (hash t) =
        csCount hash t (hash t) + 1 := by
      rw [csCount_succ, if_pos rfl]
    have hmono : csCount hash (t + 1) (hash t) ≤ csCount hash n (hash t) :=
      csCount_mono hash (hash t) (by omega)
    have hcb : csCount hash n (hash t) + csBelow hash n (hash t).toNat =
        csBelow hash n ((hash t).toNat + 1) := by
      have h := csBelow_succ hash n (hash t).toNat
      rw [hcN] at h
      omega
    have htot : csBelow hash n m = n := csBelow_total hash m n H
    have hble : csBelow hash n ((hash t).toNat + 1) ≤ n := by
      have h1 : csBelow hash n ((hash t).toNat + 1) ≤ csBelow hash n m := by
        refine csBelow_mono hash n ?_
        omega
      omega
    have hcur : zget (FlipFluid.csFill hash t first1 ids0).1 (hash t) =
        (csBelow hash n ((hash t).toNat + 1) : ℤ) -
          (csCount hash t (hash t) : ℤ) := by
      have h := ih3 (hash t).toNat (by omega)
      rw [hcN] at h
      exact h
    have hfN : zget (FlipFluid.csFill hash t first1 ids0).1 (hash t) - 1 =
        ((csBelow hash n ((hash t).toNat + 1) -
          csCount hash (t + 1) (hash t) : ℕ) : ℤ) := by
      rw [hcur]
      omega
    have hzs : zset (FlipFluid.csFill hash t first1 ids0).2
        ((csBelow hash n ((hash t).toNat + 1) -
          csCount hash (t + 1) (hash t) : ℕ) : ℤ) (t : ℤ) =
        (FlipFluid.csFill hash t first1 ids0).2.set
          (csBelow hash n ((hash t).toNat + 1) -
            csCount hash (t + 1) (hash t)) (t : ℤ) := by
      unfold zset
      rw [if_pos (Int.natCast_nonneg _)]
      simp
    refine ⟨?_, ?_, ?_, ?_, ?_⟩
    · rw [hA, zset_length]
      exact ih1
    · rw [hB, zset_length]
      exact ih2
    · intro c hc
      rw [hA]
      by_cases hcc : (c : ℤ) = hash t
      · have hceq : c = (hash t).toNat := by omega
        subst hceq
        rw [hcN, zget_zset_eq _ _ _ hHt.1 (by rw [ih1]; omega), hcur]
        omega
      · rw [zget_zset_ne _ _ _ _ (fun h => hcc h.symm), csCount_succ,
          if_neg (fun h => hcc h.symm), Nat.add_zero]
        exact ih3 c hc
    · rw [hA, zget_zset_ne _ _ _ _ (by omega : hash t ≠ (m : ℤ))]
      exact ih4
    · intro c hc
      rw [hB]
      by_cases hcc : (c : ℤ) = hash t
      · have hceq : c = (hash t).toNat := by omega
        subst hceq
        rw [hcN, hfN, hzs, seg_set_cons _ _ _ _ (by omega) (by rw [ih2]; omega)]
        have h5 := ih5 (hash t).toNat (by omega)
        rw [hcN] at h5
        rw [show csBelow hash n ((hash t).toNat + 1) -
            csCount hash (t + 1) (hash t) + 1 =
            csBelow hash n ((hash t).toNat + 1) -
              csCount hash t (hash t) from by omega, h5,
          List.range_succ, List.filter_append, List.reverse_append]
        simp
      · have hne : ¬(hash t = (c : ℤ)) := fun h => hcc h.symm
        have hcnt_eq : csCount hash (t + 1) (c : ℤ) = csCount hash t (c : ℤ) := by
          rw [csCount_succ, if_neg hne, Nat.add_zero]
        have hRF2 : (List.range (t + 1)).filter
            (fun (i : ℕ) => hash i = (c : ℤ)) =
            (List.range t).filter (fun (i : ℕ) => hash i = (c : ℤ)) := by
          rw [List.range_succ, List.filter_append]
          simp [hne]
        have hmono2 : csCount hash t (c : ℤ) ≤ csCount hash n (c : ℤ) :=
          csCount_mono hash (c : ℤ) (by omega)
        have hcb2 := csBelow_succ hash n c
        rw [hcnt_eq, hRF2, hfN, hzs]
        rcases Nat.lt_or_ge (hash t).toNat c with hlt | hge
        · have hmono3 : csBelow hash n ((hash t).toNat + 1) ≤
              csBelow hash n c := by
            refine csBelow_mono hash n ?_
            omega
          rw [seg_set_lt _ _ _ _ _ (by omega)]
          exact ih5 c hc
        · have hne2 : c ≠ (hash t).toNat := by omega
          have hmono4 : csBelow hash n (c + 1) ≤
              csBelow hash n (hash t).toNat := by
            refine csBelow_mono hash n ?_
            omega
          rw [seg_set_ge _ _ _ _ _ (by omega)]
          exact ih5 c hc

/-- C8: counting-sort hash-build correctness.  After the build phase of
`pushParticlesApart` (histogram, running totals, fill), for every hash cell
`c` the stored boundary `firstCellParticle[c]` is at most
`firstCellParticle[c+1]`, the slice `cellParticleIds[first[c] .. first[c+1])`
is exactly the list of indices of the active particles whose clamped hash
cell equals `c` (latest index first), and every active particle index occurs
exactly once among the first `numParticles` entries of `cellParticleIds`.
Hypotheses: positive hash-grid dimensions, `pNumCells = pNumX * pNumY`, and
the allocated buffer sizes of the constructor. -/
theorem C8_counting_sort_build (st : FlipFluid)
    (hx : 1 ≤ st.pNumX) (hy : 1 ≤ st.pNumY)
    (hpc : st.pNumCells = st.pNumX * st.pNumY)
    (hcl : st.numCellParticles.length = st.pNumCells.toNat)
    (hfl : st.firstCellParticle.length = st.pNumCells.toNat + 1)
    (hil : st.numParticles ≤ st.cellParticleIds.length) :
    (∀ c : ℕ, c < st.pNumCells.toNat →
      zget (FlipFluid.buildHash st).firstCellParticle (c : ℤ) ≤
        zget (FlipFluid.buildHash st).firstCellParticle ((c : ℤ) + 1)) ∧
    (∀ c : ℕ, c < st.pNumCells.toNat →
      seg (FlipFluid.buildHash st).cellParticleIds
        (zget (FlipFluid.buildHash st).firstCellParticle (c : ℤ)).toNat
        (zget (FlipFluid.buildHash st).firstCellParticle
          ((c : ℤ) + 1)).toNat =
      ((List.range st.numParticles).filter
        (fun (i : ℕ) => FlipFluid.pHash st i = (c : ℤ))).reverse.map
        (fun (i : ℕ) => (i : ℤ))) ∧
    (∀ i : ℕ, i < st.numParticles →
      ((FlipFluid.buildHash st).cellParticleIds.take st.numParticles).count
        (i : ℤ) = 1) := by
  have hcells : (1 : ℤ) ≤ st.pNumCells := by
    rw [hpc]
    nlinarith
  have hH : ∀ i, i < st.numParticles →
      0 ≤ FlipFluid.pHash st i ∧
        FlipFluid.pHash st i < ((st.pNumCells.toNat : ℕ) : ℤ) := by
    intro i _
    have h := pHash_bounds st hx hy i
    refine ⟨h.1, ?_⟩
    have htn : ((st.pNumCells.toNat : ℕ) : ℤ) = st.pNumCells := by omega
    rw [htn, hpc]
    exact h.2
  obtain ⟨hc1, hc2, hc3⟩ := csCum_get (FlipFluid.pHash st) st.pNumCells.toNat
    st.numParticles hH st.firstCellParticle hfl
  obtain ⟨hi1, hi2, hi3, hi4, hi5⟩ := csFill_invariant (FlipFluid.pHash st)
    st.pNumCells.toNat st.numParticles hH
    (FlipFluid.csCum (FlipFluid.csHist (FlipFluid.pHash st) st.numParticles
      (List.replicate st.pNumCells.toNat 0)) st.pNumCells.toNat
      st.firstCellParticle) st.cellParticleIds hc1 hc2 hil st.numParticles
    le_rfl
  have hM : List.replicate st.numCellParticles.length (0 : ℤ) =
      List.replicate st.pNumCells.toNat 0 := by rw [hcl]
  have hproj1 : (FlipFluid.buildHash st).firstCellParticle =
      (FlipFluid.csFill (FlipFluid.pHash st) st.numParticles
        (FlipFluid.csCum (FlipFluid.csHist (FlipFluid.pHash st)
          st.numParticles (List.replicate st.pNumCells.toNat 0))
          st.pNumCells.toNat st.firstCellParticle) st.cellParticleIds).1 := by
    rw [← hM]
    rfl
  have hproj2 : (FlipFluid.buildHash st).cellParticleIds =
      (FlipFluid.csFill (FlipFluid.pHash st) st.numParticles
        (FlipFluid.csCum (FlipFluid.csHist (FlipFluid.pHash st)
          st.numParticles (List.replicate st.pNumCells.toNat 0))
          st.pNumCells.toNat st.firstCellParticle) st.cellParticleIds).2 := by
    rw [← hM]
    rfl
  rw [← hproj1] at hi1 hi3 hi4
  rw [← hproj2] at hi2 hi5
  have htotal : csBelow (FlipFluid.pHash st) st.numParticles
      st.pNumCells.toNat = st.numParticles :=
    csBelow_total (FlipFluid.pHash st) st.pNumCells.toNat st.numParticles hH
  have hfv : ∀ c : ℕ, c ≤ st.pNumCells.toNat →
      zget (FlipFluid.buildHash st).firstCellParticle (c : ℤ) =
        (csBelow (FlipFluid.pHash st) st.numParticles c : ℤ) := by
    intro c hc
    rcases Nat.lt_or_ge c st.pNumCells.toNat with h | h
    · have h3 := hi3 c h
      have hb := csBelow_succ (FlipFluid.pHash st) st.numParticles c
      rw [h3]
      omega
    · have hceq : c = st.pNumCells.toNat := by omega
      subst hceq
      rw [hi4, hc3]
  refine ⟨?_, ?_, ?_⟩
  · intro c hc
    have he : ((c : ℤ) + 1) = (((c + 1 : ℕ) : ℕ) : ℤ) := by push_cast; ring
    rw [he, hfv c (by omega), hfv (c + 1) (by omega)]
    have hm := csBelow_mono (FlipFluid.pHash st) st.numParticles
      (show c ≤ c + 1 by omega)
    exact_mod_cast hm
  · intro c hc
    have he : ((c : ℤ) + 1) = (((c + 1 : ℕ) : ℕ) : ℤ) := by push_cast; ring
    rw [he, hfv c (by omega), hfv (c + 1) (by omega), Int.toNat_natCast,
      Int.toNat_natCast]
    have hb := csBelow_succ (FlipFluid.pHash st) st.numParticles c
    rw [show csBelow (FlipFluid.pHash st) st.numParticles c =
        csBelow (FlipFluid.pHash st) st.numParticles (c + 1) -
          csCount (FlipFluid.pHash st) st.numParticles (c : ℤ) from by omega]
    exact hi5 c hc
  · intro i hi
    have hHi := hH i hi
    have hcnt : ∀ k : ℕ, k ≤ st.pNumCells.toNat →
        (seg (FlipFluid.buildHash st).cellParticleIds 0
          (csBelow (FlipFluid.pHash st) st.numParticles k)).count (i : ℤ) =
          if (FlipFluid.pHash st i).toNat < k then 1 else 0 := by
      intro k
      induction k with
      | zero =>
        intro _
        rw [show csBelow (FlipFluid.pHash st) st.numParticles 0 = 0 from by
          unfold csBelow; simp, seg_nil]
        simp
      | succ k ih =>
        intro hk
        have hmk : csBelow (FlipFluid.pHash st) st.numParticles k ≤
            csBelow (FlipFluid.pHash st) st.numParticles (k + 1) :=
          csBelow_mono (FlipFluid.pHash st) st.numParticles (by omega)
        have hkn : csBelow (FlipFluid.pHash st) st.numParticles k ≤
            st.numParticles := by
          have h1 := csBelow_mono (FlipFluid.pHash st) st.numParticles
            (show k ≤ st.pNumCells.toNat by omega)
          omega
        have hsp := seg_split (FlipFluid.buildHash st).cellParticleIds 0
          (csBelow (FlipFluid.pHash st) st.numParticles k)
          (csBelow (FlipFluid.pHash st) st.numParticles (k + 1))
          (Nat.zero_le _) hmk (by rw [hi2]; omega)
        rw [hsp, List.count_append, ih (by omega)]
        have hb := csBelow_succ (FlipFluid.pHash st) st.numParticles k
        rw [show csBelow (FlipFluid.pHash st) st.numParticles k =
            csBelow (FlipFluid.pHash st) st.numParticles (k + 1) -
              csCount (FlipFluid.pHash st) st.numParticles (k : ℤ) from by
          omega]
        rw [hi5 k (by omega),
          count_in_cell (FlipFluid.pHash st) st.numParticles (k : ℤ) i hi]
        split_ifs <;> omega
    have hfin := hcnt st.pNumCells.toNat le_rfl
    rw [htotal] at hfin
    have hseg : seg (FlipFluid.buildHash st).cellParticleIds 0
        st.numParticles =
        (FlipFluid.buildHash st).cellParticleIds.take st.numParticles := by
      unfold seg
      rw [List.drop_zero]
    rw [hseg] at hfin
    rw [hfin, if_pos (by omega)]

/-- Witness for C8: in the concrete one-particle 4x4 state the particle at
`(3/2, 3/2)` hashes to cell `14` of the 6x6 hash grid, and after the build
the boundary stored for cell `14` is at most the one stored for cell `15`. -/
theorem C8_counting_sort_build_witness :
    zget (FlipFluid.buildHash (tinyState (3 / 2) (3 / 2))).firstCellParticle
      ((14 : ℕ) : ℤ) ≤
    zget (FlipFluid.buildHash (tinyState (3 / 2) (3 / 2))).firstCellParticle
      (((14 : ℕ) : ℤ) + 1) :=
  (C8_counting_sort_build (tinyState (3 / 2) (3 / 2)) (by decide) (by decide)
    (by decide) (by decide) (by decide) (by decide)).1 14 (by decide)

/-! ### C9: construction does not reject malformed configurations -/

/-- C9 (counterexample): the claim says constructing the solver with zero
particle capacity fails with an invalid-configuration error.  It does not:
the constructor performs no validation, and with `maxParticles = 0` it
returns a normal state with empty particle arrays. -/
theorem C9_zero_capacity_constructs :
    (FlipFluid.construct 1000 1 1 1 (1 / 10) 0).maxParticles = 0 ∧
    (FlipFluid.construct 1000 1 1 1 (1 / 10) 0).numParticles = 0 ∧
    (FlipFluid.construct 1000 1 1 1 (1 / 10) 0).particlePos = [] := by
  refine ⟨rfl, rfl, ?_⟩
  simp [FlipFluid.construct]

/-- C9 (amended): the constructor contains no validation check.  On every
configuration whose derived array sizes are well defined — positive grid
spacing and particle radius and a nonnegative domain, the regime in which
the JavaScript typed-array lengths are finite nonnegative integers and
allocation succeeds — it returns a normal state with the requested particle
capacity (including capacity `0`), zero active particles, zero rest density
and arrays of the computed sizes; no invalid-configuration error exists.
With zero spacing or radius the computed length itself is non-finite and
the typed-array allocation throws a `RangeError`: that is an allocation
failure outside this embedding, not the validation the original claim
asserts, so those inputs are excluded by the hypotheses. -/
theorem C9_construct_no_validation (density width height spacing r : ℚ)
    (mp : ℕ) (hsp : 0 < spacing) (hr : 0 < r) (hw : 0 ≤ width)
    (hh : 0 ≤ height) :
    (FlipFluid.construct density width height spacing r mp).maxParticles = mp ∧
    (FlipFluid.construct density width height spacing r mp).numParticles = 0 ∧
    (FlipFluid.construct density width height spacing r mp).particleRestDensity
      = 0 ∧
    (FlipFluid.construct density width height spacing r mp).particlePos.length
      = 2 * mp ∧
    (FlipFluid.construct density width height spacing r mp).u.length =
      ((⌊width / spacing⌋ + 1) * (⌊height / spacing⌋ + 1)).toNat := by
  refine ⟨rfl, rfl, rfl, ?_, ?_⟩ <;> simp [FlipFluid.construct]

/-- Witness for the amended C9: a well-formed configuration with capacity 5
constructs with the computed sizes. -/
theorem C9_construct_no_validation_witness :
    (FlipFluid.construct 1000 2 3 1 (1 / 10) 5).maxParticles = 5 ∧
    (FlipFluid.construct 1000 2 3 1 (1 / 10) 5).numParticles = 0 ∧
    (FlipFluid.construct 1000 2 3 1 (1 / 10) 5).particleRestDensity = 0 ∧
    (FlipFluid.construct 1000 2 3 1 (1 / 10) 5).particlePos.length = 2 * 5 ∧
    (FlipFluid.construct 1000 2 3 1 (1 / 10) 5).u.length =
      ((⌊(2 : ℚ) / 1⌋ + 1) * (⌊(3 : ℚ) / 1⌋ + 1)).toNat :=
  C9_construct_no_validation 1000 2 3 1 (1 / 10) 5 (by norm_num) (by norm_num)
    (by norm_num) (by norm_num)

/-! ### C7: determinism -/

/-- C7: `simulate` is a pure function of the state and the per-tick
parameters, so two runs from identical initial states with identical
per-tick parameter sequences (of any length `N`) produce identical states.
There is no randomness anywhere in the embedded pipeline. -/
theorem C7_determinism (ps1 ps2 : List SimParams) (st1 st2 : FlipFluid)
    (hst : st1 = st2) (hps : ps1 = ps2) :
    FlipFluid.runTicks ps1 st1 = FlipFluid.runTicks ps2 st2 := by
  subst hst
  subst hps
  rfl

/-- Witness for C7 at a concrete one-tick run. -/
theorem C7_determinism_witness :
    FlipFluid.runTicks [noObsParams] (tinyState (3 / 2) (3 / 2)) =
      FlipFluid.runTicks [noObsParams] (tinyState (3 / 2) (3 / 2)) :=
  C7_determinism [noObsParams] [noObsParams] (tinyState (3 / 2) (3 / 2))
    (tinyState (3 / 2) (3 / 2)) rfl rfl

/-! ### C6: a particle exactly at the obstacle centre is not ejected -/

/-- C6 (failing run): a particle placed exactly at the obstacle's centre
(zero velocity, zero gravity) stays at the centre after one `simulate` call,
at squared distance 0 from the obstacle centre, strictly less than
`(obstacleRadius + particleRadius)^2 = (3/4)^2`.  The collision code computes
the contact normal as `(dx/d, dy/d)` with `d = sqrt(0) = 0` and no zero
guard: in JavaScript the `0/0` makes the position NaN, and in this exact
embedding (total division) the displacement is zero, so in neither semantics
does the particle end up at distance at least `obstacleRadius +
particleRadius`. -/
theorem C6_center_particle_not_ejected :
    (qget (FlipFluid.simulate obsParams (tinyState (3 / 2) (3 / 2))).particlePos
        0 - obsParams.obstacleX) ^ 2 +
      (qget (FlipFluid.simulate obsParams
        (tinyState (3 / 2) (3 / 2))).particlePos 1 - obsParams.obstacleY) ^ 2 <
      (obsParams.obstacleRadius +
        (tinyState (3 / 2) (3 / 2)).particleRadius) ^ 2 := by
  decide

/-! ### C1 counterexample: rest density can be recalibrated on a later tick -/

/-- C1 (counterexample): starting from rest density 0, on the first tick at
least one cell is classified FLUID (a particle far above the open top
boundary wraps onto the top row, whose cells have `s = 1` under the
application's scene setup) and the rest density is set to the mean scattered
density over FLUID cells, which is 0 because the top-row cell receives no
density weight.  On the second tick the guard `particleRestDensity === 0`
re-runs the calibration and the value changes, so `updateParticleDensity`
does not leave the rest density unchanged on every later tick. -/
theorem C1_rest_density_recalibrated :
    (tinyState (3 / 2) (9 / 2)).particleRestDensity = 0 ∧
    FLUID_CELL ∈ (FlipFluid.preDensityState noObsParams
      (noObsParams.dt / (1 : ℚ)) (tinyState (3 / 2) (9 / 2))).cellType ∧
    (FlipFluid.simulate noObsParams
      (tinyState (3 / 2) (9 / 2))).particleRestDensity = 0 ∧
    (FlipFluid.simulate noObsParams (FlipFluid.simulate noObsParams
      (tinyState (3 / 2) (9 / 2)))).particleRestDensity = 1 := by
  refine ⟨rfl, ?_, ?_, ?_⟩ <;> decide

/-! ### C5 counterexample: a boundary cell need not be classified SOLID -/

/-- C5 (counterexample): after the classification run at the start of the
scatter phase, the cell `(i, j) = (1, 3)` of the 4x4 test grid lies on the
domain boundary (`j = fNumY - 1`) but is classified AIR, not SOLID, because
its open fraction is `s = 1`: the application's `setupScene` carves `s = 0`
only on the two side columns and the bottom row, leaving the top boundary
row open, and the classification pass marks SOLID exactly where `s == 0`. -/
theorem C5_boundary_cell_not_solid :
    qget (tinyState (3 / 2) (3 / 2)).s (1 * 4 + 3) ≠ 0 ∧
    zget (FlipFluid.transferVelocities true 0
      (tinyState (3 / 2) (3 / 2))).cellType (1 * 4 + 3) ≠ SOLID_CELL := by
  refine ⟨?_, ?_⟩ <;> decide

end FlipSpec
